import Mathlib

/-!
# IPFS proxy hijack handlers (`api/ipfsproxy/ipfsproxy.go`)

A shallow embedding of the hijack handlers of the IPFS proxy.  A handler is a
function from its environment (the RPC client and the library calls whose
results it branches on) and the request to the ordered list of effects it
performs: header writes, body writes, RPC calls, the adder run.  The HTTP
status and the body of the response are read off that list.

The route table of `New` is embedded as data and matched by a model of the
router (`gorilla/mux`), with its redirect of a path that is not in canonical
form; `Server.Shutdown` is a step on the fields of the server it touches; the
configuration of the basic monitor is in the namespace `Basic`.

Not modelled: the tracing span of `pinUpdateHandler`, contexts and their
cancellation, and the contents of the headers that `setHeaders` copies.
-/

namespace IpfsProxy

/-! ## Go values -/

/-- A non-nil Go `error`: the text of `Error()` and whether
`rpc.IsAuthorizationError` holds of it. -/
structure GoError where
  Error : String
  IsAuthorizationError : Bool := false
  deriving DecidableEq

/-- A `cid.Cid`, identified with the text `String()` returns for it. -/
structure Cid where
  String : String
  deriving DecidableEq

/-- Modelled from the spec: the type `api.Pin`, declared outside this file, is
the pin record an RPC returns; the handlers read only its `Cid` field. -/
structure Pin where
  Cid : Cid
  deriving DecidableEq

/-- Modelled from the spec: the type `api.PinPath`, declared outside this
file, with the two fields the handlers set: the path and the `PinUpdate` hint
(absent when the field is left at `cid.Undef`). -/
structure PinPath where
  Path : String
  PinUpdate : Option Cid := none
  deriving DecidableEq

/-- Modelled from the spec: the type `api.FilesWrite`, declared outside this
file: the content type, the buffered multipart body and the ordered vector of
parameters. -/
structure FilesWrite where
  ContentType : String
  BodyBuf : String
  Params : List String
  deriving DecidableEq

/-- Modelled from the spec: the type `api.AddParams`, declared outside this
file: the layout, which `addHandler` may overwrite, and the remaining options
as parsed from the query. -/
structure AddParams where
  Layout : String
  Options : List (String × String) := []
  deriving DecidableEq

/-- Modelled from the spec: the type `api.IPFSRepoStat`, declared outside this
file, has the two unsigned 64-bit fields `RepoSize` and `StorageMax`, rendered
in JSON under these names. -/
structure IPFSRepoStat where
  RepoSize : Nat := 0
  StorageMax : Nat := 0
  deriving DecidableEq

/-- A `peer.ID`, identified with its printed form. -/
abbrev PeerID := String

/-! ## Query values (`url.Values`) -/

/-- The decoded query of a request: its key/value pairs in the order they
appear, as `r.URL.Query()` collects them. -/
abbrev Values := List (String × String)

/-- All values of a key, in order: the Go expression `q[key]`. -/
def Values.index (q : Values) (key : String) : List String :=
  (q.filter (fun kv => kv.1 == key)).map Prod.snd

/-- The method `Values.Get`: the first value of the key, or the empty string. -/
def Values.Get (q : Values) (key : String) : String :=
  match q.index key with
  | [] => ""
  | v :: _ => v

/-! ## JSON rendering (`encoding/json`) -/

/-- One hexadecimal digit, lower case. -/
def hexDigit (n : Nat) : Char :=
  if n < 10 then Char.ofNat (48 + n) else Char.ofNat (87 + n)

/-- Whether `json.Marshal` copies the character unchanged into a string. -/
def jsonSafeChar (c : Char) : Bool :=
  let n := c.toNat
  !(n < 32 || n == 34 || n == 92 || n == 60 || n == 62 || n == 38
    || n == 0x2028 || n == 0x2029)

/-- The rendering of one character inside a JSON string by `json.Marshal`
(HTML escaping on): a backslash before the quote and the backslash, the short
forms for newline, return and tab, and the six-character form with four
hexadecimal digits for the other control characters, for `<`, `>`, `&` and for
the two line separators U+2028 and U+2029. -/
def jsonEscapeChar (c : Char) : List Char :=
  let n := c.toNat
  if jsonSafeChar c then [c]
  else if n == 34 then [Char.ofNat 92, Char.ofNat 34]
  else if n == 92 then [Char.ofNat 92, Char.ofNat 92]
  else if n == 10 then [Char.ofNat 92, Char.ofNat 110]
  else if n == 13 then [Char.ofNat 92, Char.ofNat 114]
  else if n == 9 then [Char.ofNat 92, Char.ofNat 116]
  else if n == 0x2028 then [Char.ofNat 92, Char.ofNat 117, Char.ofNat 50, Char.ofNat 48, Char.ofNat 50, Char.ofNat 56]
  else if n == 0x2029 then [Char.ofNat 92, Char.ofNat 117, Char.ofNat 50, Char.ofNat 48, Char.ofNat 50, Char.ofNat 57]
  else [Char.ofNat 92, Char.ofNat 117, Char.ofNat 48, Char.ofNat 48,
        hexDigit (n / 16), hexDigit (n % 16)]

/-- The rendering of a Go string by `json.Marshal`: quoted and escaped. -/
def jsonString (s : String) : String :=
  String.mk (Char.ofNat 34 :: (s.toList.flatMap jsonEscapeChar ++ [Char.ofNat 34]))

/-- A string none of whose characters `json.Marshal` escapes. -/
def jsonPlain (s : String) : Bool :=
  s.toList.all jsonSafeChar

/-- The elements of a JSON array or object, separated by commas. -/
def jsonJoin : List String → String
  | [] => ""
  | [x] => x
  | x :: y :: rest => x ++ "," ++ jsonJoin (y :: rest)

/-- The struct `ipfsError`. -/
structure ipfsError where
  Message : String
  deriving DecidableEq

/-- The struct `ipfsPinType`. -/
structure ipfsPinType where
  Type_ : String
  deriving DecidableEq

/-- The struct `ipfsPinOpResp`. -/
structure ipfsPinOpResp where
  Pins : List String
  deriving DecidableEq

/-- The result of `json.Marshal` on an `ipfsError`. -/
def ipfsError.Marshal (e : ipfsError) : String :=
  "\x7b\"Message\":" ++ jsonString e.Message ++ "\x7d"

/-- The result of `json.Marshal` on an `ipfsPinType`. -/
def ipfsPinType.Marshal (t : ipfsPinType) : String :=
  "\x7b\"Type\":" ++ jsonString t.Type_ ++ "\x7d"

/-- The result of `json.Marshal` on an `ipfsPinOpResp`. -/
def ipfsPinOpResp.Marshal (res : ipfsPinOpResp) : String :=
  "\x7b\"Pins\":[" ++ jsonJoin (res.Pins.map jsonString) ++ "]\x7d"

/-- The result of `json.Marshal` on an `api.IPFSRepoStat`. -/
def IPFSRepoStat.Marshal (st : IPFSRepoStat) : String :=
  "\x7b\"RepoSize\":" ++ toString st.RepoSize ++ ",\"StorageMax\":"
    ++ toString st.StorageMax ++ "\x7d"

/-! ## Go maps with string keys -/

/-- A `map[string]V`, kept as an association list with strictly increasing
keys, the order in which `json.Marshal` prints a map. -/
abbrev StrMap (V : Type) := List (String × V)

/-- The order of Go strings, byte by byte, which on valid UTF-8 is the order
of the code points. -/
def charsLt : List Char → List Char → Bool
  | [], [] => false
  | [], _ :: _ => true
  | _ :: _, [] => false
  | a :: as, b :: bs => a.toNat < b.toNat || (a.toNat == b.toNat && charsLt as bs)

/-- The assignment `m[k] = v`. -/
def StrMap.set {V : Type} : StrMap V → String → V → StrMap V
  | [], k, v => [(k, v)]
  | (k0, v0) :: rest, k, v =>
    if charsLt k.toList k0.toList then (k, v) :: (k0, v0) :: rest
    else if k = k0 then (k, v) :: rest
    else (k0, v0) :: StrMap.set rest k v

/-- The keys of a map are strictly increasing. -/
def StrMap.Sorted {V : Type} (m : StrMap V) : Prop :=
  m.Pairwise (fun a b => charsLt a.1.toList b.1.toList = true)

/-- The struct `ipfsPinLsResp`. -/
structure ipfsPinLsResp where
  Keys : StrMap ipfsPinType
  deriving DecidableEq

/-- The result of `json.Marshal` on an `ipfsPinLsResp`. -/
def ipfsPinLsResp.Marshal (res : ipfsPinLsResp) : String :=
  "\x7b\"Keys\":\x7b"
    ++ jsonJoin (res.Keys.map (fun kv => jsonString kv.1 ++ ":" ++ kv.2.Marshal))
    ++ "\x7d\x7d"

/-! ## Effects, environment, request -/

/-- The argument of an RPC call. -/
inductive RpcArg where
  | empty
  | str (s : String)
  | strs (l : List String)
  | cid (c : Cid)
  | PinCid (c : Cid)
  | pinPath (p : PinPath)
  | filesWrite (fw : FilesWrite)
  deriving DecidableEq

/-- One call on the RPC client: destination peer, service, method and
argument. -/
structure RpcCall where
  dest : String
  svcName : String
  svcMethod : String
  arg : RpcArg
  deriving DecidableEq

/-- The successive results of `NextPart` on a multipart reader: the part (its
content, when it is not nil) and the error.  Past the end of the list the
reader is at end of input. -/
abbrev MultipartReader := List (Option String × Option GoError)

/-- The levels of the log calls in the handlers. -/
inductive LogLevel where
  | debug
  | warning
  | error
  deriving DecidableEq

/-- What a handler does, one step at a time.  The step `setHeaders` is the
call of the method `setHeaders`, defined outside this file: following the spec
it copies remembered headers into the response, and it writes no status, no
body and issues no RPC.  The step `AddMultipartHTTPHandler` is the whole run
of the adder on the multipart reader, with everything the adder reads, writes
and calls.  The step `Panic` is a panic, which ends the handler. -/
inductive Effect where
  | setHeaders
  | WriteHeader (code : Int)
  | Write (b : String)
  | HeaderSet (key value : String)
  | Call (c : RpcCall)
  | MultiCall (dests : List PeerID) (svcName svcMethod : String)
  | AddMultipartHTTPHandler (params : AddParams) (reader : MultipartReader)
  | Sleep (milliseconds : Nat)
  | Log (level : LogLevel) (msg : String)
  | Panic (msg : String)
  deriving DecidableEq

/-- The request, as far as the handlers read it: the text of its URL, its
decoded query, its multipart reader and the variables of the route that
matched it (`mux.Vars`). -/
structure Request where
  URL : String
  Query : Values
  MultipartReader : Except GoError MultipartReader
  Vars : List (String × String) := []

/-- The collaborators of the handlers, all defined outside this file and taken
as parameters: `path.ParsePath` (its result printed by `String()`),
`cid.Decode`, `api.AddParamsFromQuery`, `adderutils.AddMultipartHTTPHandler`,
the RPC client with one entry per type of reply (`CallEmpty` for the reply
`struct{}`, `CallJSON` for a reply that is only printed by `json.Marshal`),
the fan-out `MultiCall` of `RepoStat` (for the peer at an index: what is left
in its reply slot, and its error), the multipart writer, the clock, and the
text of the URL of a request once its raw query is the encoding of given
values (`url.Values.Encode`, `url.URL.String`).  Every
call receives the effects performed so far in the request, so that its result
may depend on anything that happened before it. -/
structure Env where
  ParsePath : String → Except GoError String
  Decode : String → Except GoError Cid
  AddParamsFromQuery : Values → Except GoError AddParams
  AddMultipartHTTPHandler :
    List Effect → AddParams → MultipartReader → Except GoError Cid
  CallPin : List Effect → RpcCall → Except GoError Pin
  CallCid : List Effect → RpcCall → Except GoError Cid
  CallPins : List Effect → RpcCall → Except GoError (List Pin)
  CallPeers : List Effect → RpcCall → Except GoError (List PeerID)
  CallEmpty : List Effect → RpcCall → Option GoError
  CallBytes : List Effect → RpcCall → Except GoError String
  CallJSON : List Effect → RpcCall → Except GoError String
  MultiCallRepoStat :
    List Effect → List PeerID → Nat → IPFSRepoStat × Option GoError
  CreateFormFile : List Effect → String → String → Option GoError
  FormDataContentType : String
  FormFileBody : String → String → String → String
  Now : Int
  URLString : Request → Values → String

/-- The RPC calls among the effects, in order. -/
def rpcCalls : List Effect → List RpcCall
  | [] => []
  | Effect.Call c :: rest => c :: rpcCalls rest
  | _ :: rest => rpcCalls rest

/-- Whether the effect is an RPC, single or fanned out. -/
def Effect.isRpc : Effect → Bool
  | Effect.Call _ => true
  | Effect.MultiCall _ _ _ => true
  | _ => false

/-- Whether the effect is a log line. -/
def Effect.isLog : Effect → Bool
  | Effect.Log _ _ => true
  | _ => false

/-- The status of the response: the code of the first `WriteHeader`, or 200
when the body is written first. -/
def responseStatus : List Effect → Option Int
  | [] => none
  | Effect.WriteHeader code :: _ => some code
  | Effect.Write _ :: _ => some 200
  | _ :: rest => responseStatus rest

/-- The body of the response: everything written, in order. -/
def responseBody : List Effect → String
  | [] => ""
  | Effect.Write b :: rest => b ++ responseBody rest
  | _ :: rest => responseBody rest

/-! ## The handlers -/

/-- The check `checkWriteHeaderCode` of `net/http`, which the response writer
runs in `WriteHeader`: a status code has three digits. -/
def checkWriteHeaderCode (code : Int) : Bool :=
  !(code < 100 || code > 999)

/-- The function `ipfsErrorResponder`.  The call `w.WriteHeader` panics on a
code that fails `checkWriteHeaderCode`, before anything is written, and the
write of the body is then not reached. -/
def ipfsErrorResponder (errMsg : String) (code : Int) : List Effect :=
  let res : ipfsError := ⟨errMsg⟩
  let resBytes := res.Marshal
  let status := if code > 0 then code else 500
  if checkWriteHeaderCode status then
    [Effect.WriteHeader status, Effect.Write resBytes]
  else
    [Effect.Panic ("invalid WriteHeader code " ++ toString status)]

/-- The method `pinOpHandler`. -/
def pinOpHandler (env : Env) (op : String) (r : Request) : List Effect :=
  let l0 := [Effect.setHeaders]
  let arg := r.Query.Get "arg"
  match env.ParsePath arg with
  | .error err =>
    l0 ++ ipfsErrorResponder ("Error parsing IPFS Path: " ++ err.Error) (-1)
  | .ok p =>
    let pinPath : PinPath := { Path := p }
    let call : RpcCall := ⟨"", "Cluster", op, .pinPath pinPath⟩
    let l1 := l0 ++ [Effect.Call call]
    match env.CallPin l0 call with
    | .error err => l1 ++ ipfsErrorResponder err.Error (-1)
    | .ok pin =>
      let res : ipfsPinOpResp := ⟨[pin.Cid.String]⟩
      let resBytes := res.Marshal
      l1 ++ [Effect.WriteHeader 200, Effect.Write resBytes]

/-- The method `pinHandler`. -/
def pinHandler (env : Env) (r : Request) : List Effect :=
  pinOpHandler env "PinPath" r

/-- The method `unpinHandler`. -/
def unpinHandler (env : Env) (r : Request) : List Effect :=
  pinOpHandler env "UnpinPath" r

/-- The loop of `pinLsHandler` over the pins returned by `Pins`. -/
def pinLsKeys (pins : List Pin) (keys : StrMap ipfsPinType) : StrMap ipfsPinType :=
  pins.foldl (fun m pin => m.set pin.Cid.String ⟨"recursive"⟩) keys

/-- The method `pinLsHandler`. -/
def pinLsHandler (env : Env) (r : Request) : List Effect :=
  let l0 := [Effect.setHeaders]
  let keys : StrMap ipfsPinType := []
  let arg := r.Query.Get "arg"
  if arg ≠ "" then
    match env.Decode arg with
    | .error err => l0 ++ ipfsErrorResponder err.Error (-1)
    | .ok c =>
      let call : RpcCall := ⟨"", "Cluster", "PinGet", .cid c⟩
      let l1 := l0 ++ [Effect.Call call]
      match env.CallPin l0 call with
      | .error _ =>
        l1 ++ ipfsErrorResponder ("Error: path '" ++ arg ++ "' is not pinned") (-1)
      | .ok pin =>
        let pinLs : ipfsPinLsResp := ⟨keys.set pin.Cid.String ⟨"recursive"⟩⟩
        l1 ++ [Effect.WriteHeader 200, Effect.Write pinLs.Marshal]
  else
    let call : RpcCall := ⟨"", "Cluster", "Pins", .empty⟩
    let l1 := l0 ++ [Effect.Call call]
    match env.CallPins l0 call with
    | .error err => l1 ++ ipfsErrorResponder err.Error (-1)
    | .ok pins =>
      let pinLs : ipfsPinLsResp := ⟨pinLsKeys pins keys⟩
      l1 ++ [Effect.WriteHeader 200, Effect.Write pinLs.Marshal]

/-- The method `pinUpdateHandler`. -/
def pinUpdateHandler (env : Env) (r : Request) : List Effect :=
  let l0 := [Effect.setHeaders]
  let q := r.Query
  match q.index "arg" with
  | [] => l0 ++ ipfsErrorResponder "argument \"from-path\" is required" 400
  | [_] => l0 ++ ipfsErrorResponder "argument \"to-path\" is required" 400
  | from_ :: to_ :: _ =>
    let unpin := !(q.Get "unpin" == "false")
    match env.ParsePath from_ with
    | .error err =>
      l0 ++ ipfsErrorResponder
        ("error parsing \"from-path\" argument: " ++ err.Error) (-1)
    | .ok pFrom =>
      match env.ParsePath to_ with
      | .error err =>
        l0 ++ ipfsErrorResponder
          ("error parsing \"to-path\" argument: " ++ err.Error) (-1)
      | .ok pTo =>
        let call1 : RpcCall := ⟨"", "IPFSConnector", "Resolve", .str pFrom⟩
        let l1 := l0 ++ [Effect.Call call1]
        match env.CallCid l0 call1 with
        | .error err => l1 ++ ipfsErrorResponder err.Error (-1)
        | .ok fromCid =>
          let pinPath : PinPath := { Path := pTo, PinUpdate := some fromCid }
          let call2 : RpcCall := ⟨"", "Cluster", "PinPath", .pinPath pinPath⟩
          let l2 := l1 ++ [Effect.Call call2]
          match env.CallPin l1 call2 with
          | .error err => l2 ++ ipfsErrorResponder err.Error (-1)
          | .ok pin =>
            let res : ipfsPinOpResp := ⟨[fromCid.String, pin.Cid.String]⟩
            let done := [Effect.WriteHeader 200, Effect.Write res.Marshal]
            if unpin then
              let call3 : RpcCall := ⟨"", "Cluster", "Unpin", .PinCid fromCid⟩
              let l3 := l2 ++ [Effect.Call call3]
              match env.CallPin l2 call3 with
              | .error err => l3 ++ ipfsErrorResponder err.Error (-1)
              | .ok _ => l3 ++ done
            else l2 ++ done

/-- The method `addHandler`.  What the adder writes to the response is part
of its own effect; the warning is logged without the printed parameters. -/
def addHandler (env : Env) (r : Request) : List Effect :=
  let l0 := [Effect.setHeaders]
  match r.MultipartReader with
  | .error err =>
    l0 ++ ipfsErrorResponder ("error reading request: " ++ err.Error) (-1)
  | .ok reader =>
    let q := r.Query
    let l1 :=
      if q.Get "only-hash" = "true" then
        l0 ++ ipfsErrorResponder "only-hash is not supported when adding to cluster" (-1)
      else l0
    let unpin := q.Get "pin" == "false"
    match env.AddParamsFromQuery q with
    | .error err =>
      l1 ++ ipfsErrorResponder ("error parsing options:" ++ err.Error) (-1)
    | .ok params0 =>
      let trickle := q.Get "trickle"
      let params : AddParams :=
        if trickle = "true" then { params0 with Layout := "trickle" } else params0
      let l2 := l1 ++ [Effect.Log LogLevel.warning
        "Proxy/add does not support all IPFS params."]
      let l3 := l2 ++ [Effect.AddMultipartHTTPHandler params reader]
      match env.AddMultipartHTTPHandler l2 params reader with
      | .error _ => l3
      | .ok root =>
        if !unpin then l3
        else
          let l4 := l3 ++ [Effect.Sleep 100]
          let call : RpcCall := ⟨"", "Cluster", "Unpin", .cid root⟩
          let l5 := l4 ++ [Effect.Call call]
          match env.CallPin l4 call with
          | .error err => l5 ++ [Effect.HeaderSet "X-Stream-Error" err.Error]
          | .ok _ => l5

/-- The loop of `repoStatHandler` over the errors of the fan-out, each with
its peer and the reply slot of that peer: the totals (unsigned 64-bit) and the
log lines. -/
def repoStatLoop :
    List (PeerID × IPFSRepoStat × Option GoError) → IPFSRepoStat × List Effect →
      IPFSRepoStat × List Effect
  | [], acc => acc
  | (peer, _, some err) :: rest, (totalStats, logs) =>
    if err.IsAuthorizationError then
      repoStatLoop rest (totalStats, logs ++ [Effect.Log LogLevel.debug err.Error])
    else
      repoStatLoop rest (totalStats, logs ++ [Effect.Log LogLevel.error
        (peer ++ " repo/stat errored: " ++ err.Error)])
  | (_, st, none) :: rest, (totalStats, logs) =>
    repoStatLoop rest
      (⟨(totalStats.RepoSize + st.RepoSize) % 2 ^ 64,
        (totalStats.StorageMax + st.StorageMax) % 2 ^ 64⟩, logs)

/-- The outcome of the `RepoStat` fan-out: for every peer, in order, the peer,
its reply slot and its error. -/
def repoStatOutcomes (env : Env) (log : List Effect) (peers : List PeerID) :
    List (PeerID × IPFSRepoStat × Option GoError) :=
  peers.enum.map (fun ip => (ip.2, env.MultiCallRepoStat log peers ip.1))

/-- The method `repoStatHandler`. -/
def repoStatHandler (env : Env) (_r : Request) : List Effect :=
  let l0 := [Effect.setHeaders]
  let call : RpcCall := ⟨"", "Consensus", "Peers", .empty⟩
  let l1 := l0 ++ [Effect.Call call]
  match env.CallPeers l0 call with
  | .error err => l1 ++ ipfsErrorResponder err.Error (-1)
  | .ok peers =>
    let l2 := l1 ++ [Effect.MultiCall peers "IPFSConnector" "RepoStat"]
    let outcomes := repoStatOutcomes env l1 peers
    let (totalStats, logs) := repoStatLoop outcomes (⟨0, 0⟩, [])
    l2 ++ logs ++ [Effect.WriteHeader 200, Effect.Write totalStats.Marshal]

/-- The method `uidSpawn`, run after the effects `log`: the effects after it
and the error it returns (`none` for nil). -/
def uidSpawn (env : Env) (log : List Effect) (uid : String) :
    List Effect × Option GoError :=
  match env.CreateFormFile log "file" "time.txt" with
  | some err => (log, some err)
  | none =>
    let time := toString env.Now
    let bodyBuf := env.FormFileBody "file" "time.txt" time
    let contentType := env.FormDataContentType
    let filesWrite : FilesWrite :=
      ⟨contentType, bodyBuf, [uid, "time.txt", "0", "true", "true", "", "", "", ""]⟩
    let call : RpcCall := ⟨"", "Cluster", "IPFSFilesWrite", .filesWrite filesWrite⟩
    let err := env.CallEmpty log call
    let log1 := log ++ [Effect.Call call]
    if err = none then (log1, err)
    else (log1, none)

/-- The method `filesCpHandler`. -/
def filesCpHandler (env : Env) (r : Request) : List Effect :=
  let l0 := [Effect.setHeaders]
  let q := r.Query
  let uid := q.Get "uid"
  if uid = "" then l0 ++ ipfsErrorResponder ("error reading request: " ++ r.URL) (-1)
  else
    match uidSpawn env l0 uid with
    | (l1, some err) => l1 ++ ipfsErrorResponder err.Error (-1)
    | (l1, none) =>
      let source := q.Get "source"
      if source = "" then
        l1 ++ ipfsErrorResponder ("error reading request: " ++ r.URL) (-1)
      else
        let dest := q.Get "dest"
        if dest = "" then
          l1 ++ ipfsErrorResponder ("error reading request: " ++ r.URL) (-1)
        else
          let call : RpcCall := ⟨"", "Cluster", "IPFSFilesCp", .strs [uid, source, dest]⟩
          let l2 := l1 ++ [Effect.Call call]
          match env.CallEmpty l1 call with
          | some err => l2 ++ ipfsErrorResponder err.Error (-1)
          | none => l2 ++ [Effect.WriteHeader 200]

/-- The method `filesFlushHandler`. -/
def filesFlushHandler (env : Env) (r : Request) : List Effect :=
  let l0 := [Effect.setHeaders]
  let q := r.Query
  let uid := q.Get "uid"
  if uid = "" then l0 ++ ipfsErrorResponder ("error reading request: " ++ r.URL) (-1)
  else
    match uidSpawn env l0 uid with
    | (l1, some err) => l1 ++ ipfsErrorResponder err.Error (-1)
    | (l1, none) =>
      let path := if q.Get "path" = "" then "/" else q.Get "path"
      let call : RpcCall := ⟨"", "Cluster", "IPFSFilesFlush", .strs [uid, path]⟩
      let l2 := l1 ++ [Effect.Call call]
      match env.CallEmpty l1 call with
      | some err => l2 ++ ipfsErrorResponder err.Error (-1)
      | none => l2 ++ [Effect.WriteHeader 200]

/-- The method `filesLsHandler`; the reply `api.FilesLs` is carried as the
JSON text `json.Marshal` gives for it. -/
def filesLsHandler (env : Env) (r : Request) : List Effect :=
  let l0 := [Effect.setHeaders]
  let q := r.Query
  let uid := q.Get "uid"
  if uid = "" then l0 ++ ipfsErrorResponder ("error reading request: " ++ r.URL) (-1)
  else
    let path := if q.Get "path" = "" then "/" else q.Get "path"
    let call : RpcCall := ⟨"", "Cluster", "IPFSFilesLs", .strs [uid, path]⟩
    let l1 := l0 ++ [Effect.Call call]
    match env.CallJSON l0 call with
    | .error err => l1 ++ ipfsErrorResponder err.Error (-1)
    | .ok resBytes => l1 ++ [Effect.WriteHeader 200, Effect.Write resBytes]

/-- The method `filesMkdirHandler`. -/
def filesMkdirHandler (env : Env) (r : Request) : List Effect :=
  let l0 := [Effect.setHeaders]
  let q := r.Query
  let uid := q.Get "uid"
  if uid = "" then l0 ++ ipfsErrorResponder ("error reading request: " ++ r.URL) (-1)
  else
    let path := if q.Get "path" = "" then "/" else q.Get "path"
    let spawned : List Effect × Option GoError :=
      if path ≠ "/" then uidSpawn env l0 uid else (l0, none)
    match spawned with
    | (l1, some err2) => l1 ++ ipfsErrorResponder err2.Error (-1)
    | (l1, none) =>
      let parents := if q.Get "parents" = "" then "false" else q.Get "parents"
      let call : RpcCall := ⟨"", "Cluster", "IPFSFilesMkdir", .strs [uid, path, parents]⟩
      let l2 := l1 ++ [Effect.Call call]
      match env.CallEmpty l1 call with
      | some err => l2 ++ ipfsErrorResponder err.Error (-1)
      | none => l2 ++ [Effect.WriteHeader 200]

/-- The method `filesMvHandler`. -/
def filesMvHandler (env : Env) (r : Request) : List Effect :=
  let l0 := [Effect.setHeaders]
  let q := r.Query
  let uid := q.Get "uid"
  if uid = "" then l0 ++ ipfsErrorResponder ("error reading request: " ++ r.URL) (-1)
  else
    match uidSpawn env l0 uid with
    | (l1, some err) => l1 ++ ipfsErrorResponder err.Error (-1)
    | (l1, none) =>
      let source := if q.Get "source" = "" then "/" else q.Get "source"
      let dest := if q.Get "dest" = "" then "/" else q.Get "dest"
      let call : RpcCall := ⟨"", "Cluster", "IPFSFilesMv", .strs [uid, source, dest]⟩
      let l2 := l1 ++ [Effect.Call call]
      match env.CallEmpty l1 call with
      | some err => l2 ++ ipfsErrorResponder err.Error (-1)
      | none => l2 ++ [Effect.WriteHeader 200]

/-- The method `filesReadHandler`. -/
def filesReadHandler (env : Env) (r : Request) : List Effect :=
  let l0 := [Effect.setHeaders]
  let q := r.Query
  let uid := q.Get "uid"
  if uid = "" then l0 ++ ipfsErrorResponder ("error reading request: " ++ r.URL) (-1)
  else
    let path := q.Get "path"
    if path = "" then l0 ++ ipfsErrorResponder ("error reading request: " ++ r.URL) (-1)
    else
      let offset := q.Get "offset"
      let count := q.Get "count"
      let call : RpcCall :=
        ⟨"", "Cluster", "IPFSFilesRead", .strs [uid, path, offset, count]⟩
      let l1 := l0 ++ [Effect.Call call]
      match env.CallBytes l0 call with
      | .error err => l1 ++ ipfsErrorResponder err.Error (-1)
      | .ok filesReadBuf => l1 ++ [Effect.WriteHeader 200, Effect.Write filesReadBuf]

/-- The method `filesRmHandler`. -/
def filesRmHandler (env : Env) (r : Request) : List Effect :=
  let l0 := [Effect.setHeaders]
  let q := r.Query
  let uid := q.Get "uid"
  if uid = "" then l0 ++ ipfsErrorResponder ("error reading request: " ++ r.URL) (-1)
  else
    match uidSpawn env l0 uid with
    | (l1, some err) => l1 ++ ipfsErrorResponder err.Error (-1)
    | (l1, none) =>
      let path := q.Get "path"
      if path = "" then
        l1 ++ ipfsErrorResponder ("error reading request: " ++ r.URL) (-1)
      else if path = "/" then
        l1 ++ ipfsErrorResponder ("can not remove path: " ++ path) (-1)
      else
        let recursive := if q.Get "recursive" = "" then "false" else q.Get "recursive"
        let call : RpcCall :=
          ⟨"", "Cluster", "IPFSFilesRm", .strs [uid, path, recursive]⟩
        let l2 := l1 ++ [Effect.Call call]
        match env.CallEmpty l1 call with
        | some err => l2 ++ ipfsErrorResponder err.Error (-1)
        | none => l2 ++ [Effect.WriteHeader 200]

/-- The method `filesStatHandler`; the reply `api.FilesStat` is carried as the
JSON text `json.Marshal` gives for it. -/
def filesStatHandler (env : Env) (r : Request) : List Effect :=
  let l0 := [Effect.setHeaders]
  let q := r.Query
  let uid := q.Get "uid"
  if uid = "" then l0 ++ ipfsErrorResponder ("error reading request: " ++ r.URL) (-1)
  else
    let path := q.Get "path"
    if path = "" then l0 ++ ipfsErrorResponder ("error reading request: " ++ r.URL) (-1)
    else
      let format := q.Get "format"
      let hash := q.Get "hash"
      let size := q.Get "size"
      let with_local := q.Get "with-local"
      let call : RpcCall :=
        ⟨"", "Cluster", "IPFSFilesStat", .strs [uid, path, format, hash, size, with_local]⟩
      let l1 := l0 ++ [Effect.Call call]
      match env.CallJSON l0 call with
      | .error err => l1 ++ ipfsErrorResponder err.Error (-1)
      | .ok resBytes => l1 ++ [Effect.WriteHeader 200, Effect.Write resBytes]

/-- The loop of `filesWriteHandler` over the parts of the request: the bytes
copied into the form file, or the error that stops the handler. -/
def copyParts : MultipartReader → String → Except GoError String
  | [], copied => .ok copied
  | (none, _) :: _, copied => .ok copied
  | (some _, some err) :: _, _ => .error err
  | (some part, none) :: rest, copied => copyParts rest (copied ++ part)

/-- The method `filesWriteHandler`. -/
def filesWriteHandler (env : Env) (r : Request) : List Effect :=
  let l0 := [Effect.setHeaders]
  let q := r.Query
  let uid := q.Get "uid"
  if uid = "" then l0 ++ ipfsErrorResponder ("error reading request: " ++ r.URL) (-1)
  else
    match uidSpawn env l0 uid with
    | (l1, some err) => l1 ++ ipfsErrorResponder err.Error (-1)
    | (l1, none) =>
      let path := q.Get "path"
      if path = "" then
        l1 ++ ipfsErrorResponder ("error reading request: " ++ r.URL) (-1)
      else
        let offset := q.Get "offset"
        let create := q.Get "create"
        let truncate := q.Get "truncate"
        let count := q.Get "count"
        let rawLeaves := q.Get "raw-leaves"
        let cidVersion := q.Get "cid-version"
        let hash := q.Get "hash"
        match r.MultipartReader with
        | .error err => l1 ++ ipfsErrorResponder err.Error (-1)
        | .ok multipartReader =>
          match env.CreateFormFile l1 "file" "upload" with
          | some err => l1 ++ ipfsErrorResponder err.Error (-1)
          | none =>
            match copyParts multipartReader "" with
            | .error err =>
              l1 ++ [Effect.Log LogLevel.error err.Error]
                ++ ipfsErrorResponder err.Error (-1)
            | .ok copied =>
              let contentType := env.FormDataContentType
              let bodyBuf := env.FormFileBody "file" "upload" copied
              let filesWrite : FilesWrite :=
                ⟨contentType, bodyBuf,
                  [uid, path, offset, create, truncate, count, rawLeaves, cidVersion, hash]⟩
              let call : RpcCall :=
                ⟨"", "Cluster", "IPFSFilesWrite", .filesWrite filesWrite⟩
              let l2 := l1 ++ [Effect.Call call]
              match env.CallEmpty l1 call with
              | some err => l2 ++ ipfsErrorResponder err.Error (-1)
              | none => l2 ++ [Effect.WriteHeader 200]

/-! ## Concrete environments and requests -/

/-- The text after the leading `/ipfs/` of a path. -/
def lastSegment (p : String) : String :=
  String.mk (p.toList.drop 6)

/-- A cooperative mock: paths parse (a bare CID gets `/ipfs/` in front, the
empty string is refused), pin calls answer with the CID they were given,
`Pins` lists two pins, and of three peers the second refuses `RepoStat` with
an authorization error, its reply slot holding numbers all the same. -/
def mockEnv : Env where
  ParsePath := fun s =>
    if s = "" then .error ⟨"empty path", false⟩
    else if s.toList.head? = some (Char.ofNat 47) then .ok s
    else .ok ("/ipfs/" ++ s)
  Decode := fun s => if s = "" then .error ⟨"cid too short", false⟩ else .ok ⟨s⟩
  AddParamsFromQuery := fun _ => .ok ⟨"", []⟩
  AddMultipartHTTPHandler := fun _ _ _ => .ok ⟨"QmR"⟩
  CallPin := fun _ c =>
    match c.arg with
    | .pinPath pp => .ok ⟨⟨lastSegment pp.Path⟩⟩
    | .cid c => .ok ⟨c⟩
    | .PinCid c => .ok ⟨c⟩
    | _ => .error ⟨"bad argument", false⟩
  CallCid := fun _ c =>
    match c.arg with
    | .str p => .ok ⟨lastSegment p⟩
    | _ => .error ⟨"bad argument", false⟩
  CallPins := fun _ _ => .ok [⟨⟨"QmB"⟩⟩, ⟨⟨"QmA"⟩⟩]
  CallPeers := fun _ _ => .ok ["P1", "P2", "P3"]
  CallEmpty := fun _ _ => none
  CallBytes := fun _ _ => .ok "data"
  CallJSON := fun _ _ => .ok "\x7b\x7d"
  MultiCallRepoStat := fun _ _ i =>
    if i = 0 then (⟨10, 100⟩, none)
    else if i = 1 then (⟨7, 7⟩, some ⟨"not authorized", true⟩)
    else (⟨5, 50⟩, none)
  CreateFormFile := fun _ _ _ => none
  FormDataContentType := "multipart/form-data; boundary=b0"
  FormFileBody := fun field file content =>
    "--b0\r\nContent-Disposition: form-data; name=\"" ++ field ++ "\"; filename=\""
      ++ file ++ "\"\r\nContent-Type: application/octet-stream\r\n\r\n"
      ++ content ++ "\r\n--b0--\r\n"
  Now := 1572860000
  URLString := fun r q =>
    String.mk (r.URL.toList.takeWhile (fun c => c != Char.ofNat 63)) ++ "?"
      ++ String.intercalate "&" (q.map (fun kv => kv.1 ++ "=" ++ kv.2))

/-- The mock with an RPC client all of whose calls fail. -/
def downEnv : Env :=
  { mockEnv with
    CallPin := fun _ _ => .error ⟨"rpc down", false⟩
    CallCid := fun _ _ => .error ⟨"rpc down", false⟩
    CallPins := fun _ _ => .error ⟨"rpc down", false⟩
    CallPeers := fun _ _ => .error ⟨"rpc down", false⟩
    CallEmpty := fun _ _ => some ⟨"rpc down", false⟩
    CallBytes := fun _ _ => .error ⟨"rpc down", false⟩
    CallJSON := fun _ _ => .error ⟨"rpc down", false⟩ }

/-- The mock with an RPC client on which only `IPFSFilesWrite`, the call of
the spawn hook, fails. -/
def spawnDownEnv : Env :=
  { mockEnv with
    CallEmpty := fun _ c =>
      if c.svcMethod = "IPFSFilesWrite" then some ⟨"rpc down", false⟩ else none }

/-- A request without a multipart body. -/
def plainRequest (url : String) (query : Values) : Request :=
  { URL := url, Query := query,
    MultipartReader := .error ⟨"request Content-Type is not multipart/form-data", false⟩ }

/-- A request with a multipart body of one part. -/
def uploadRequest (url : String) (query : Values) : Request :=
  { URL := url, Query := query, MultipartReader := .ok [(some "hello", none)] }

/-! ## The router (`gorilla/mux`) and the route table of `New` -/

/-- The handlers that `New` registers: the methods of the proxy, the shim
`slashHandler` around one of them, and the reverse proxy. -/
inductive Handler where
  | pinHandler
  | unpinHandler
  | pinLsHandler
  | pinUpdateHandler
  | addHandler
  | repoStatHandler
  | uidNewHandler
  | uidLoginHandler
  | fileGetHandler
  | fileCatHandler
  | filesCpHandler
  | filesFlushHandler
  | filesLsHandler
  | filesMkdirHandler
  | filesMvHandler
  | filesReadHandler
  | filesRmHandler
  | filesStatHandler
  | filesWriteHandler
  | slashHandler (origHandler : Handler)
  | reverseProxy
  deriving DecidableEq

/-- The variables of a matched route (`mux.Vars`). -/
abbrev Vars := List (String × String)

/-- The pieces of a path between its slashes. -/
def splitSlash : List Char → List (List Char)
  | [] => [[]]
  | c :: cs =>
    match splitSlash cs with
    | [] => [[]]
    | seg :: segs =>
      if c = Char.ofNat 47 then [] :: seg :: segs else (c :: seg) :: segs

/-- One piece of a template against one piece of a path: a variable, written
between braces, takes any non-empty piece (the pattern `[^/]+`) and is bound to
it; any other piece of a template takes only itself. -/
def matchSegment (t p : List Char) : Option Vars :=
  match t with
  | c :: rest =>
    if c = Char.ofNat 123 ∧ rest.getLast? = some (Char.ofNat 125) then
      if p = [] then none else some [(String.mk rest.dropLast, String.mk p)]
    else if t = p then some [] else none
  | [] => if p = [] then some [] else none

/-- The pieces of a template against the pieces of a path, one by one. -/
def matchSegments : List (List Char) → List (List Char) → Option Vars
  | [], [] => some []
  | t :: ts, p :: ps =>
    match matchSegment t p, matchSegments ts ps with
    | some a, some b => some (a ++ b)
    | _, _ => none
  | _, _ => none

/-- A path against the template of a `Path` matcher, whose variables stand at
whole pieces: the path must match from end to end. -/
def matchTemplate (tpl path : String) : Option Vars :=
  matchSegments (splitSlash tpl.toList) (splitSlash path.toList)

/-- Whether the first list begins the second. -/
def beginsWith : List Char → List Char → Bool
  | [], _ => true
  | _ :: _, [] => false
  | a :: as, b :: bs => a == b && beginsWith as bs

/-- The matchers of the routes of `New`. -/
inductive Matcher where
  | Methods (methods : List String)
  | PathPrefix (tpl : String)
  | Path (tpl : String)
  deriving DecidableEq

/-- Whether the matcher accepts the request: its method is one of the listed
ones, its path begins with the text (the prefixes of this table hold no
variable), its path matches the template. -/
def Matcher.Match (m : Matcher) (method path : String) : Bool :=
  match m with
  | .Methods methods => methods.contains method
  | .PathPrefix tpl => beginsWith tpl.toList path.toList
  | .Path tpl => (matchTemplate tpl path).isSome

/-- The variables the matcher binds on a path it accepts. -/
def Matcher.vars (m : Matcher) (path : String) : Vars :=
  match m with
  | .Path tpl => (matchTemplate tpl path).getD []
  | _ => []

/-- The two errors of matching. -/
inductive MatchErr where
  | ErrMethodMismatch
  | ErrNotFound
  deriving DecidableEq

/-- The struct `mux.RouteMatch`; the route is kept by its name. -/
structure RouteMatch where
  Route : Option String := none
  Handler : Option Handler := none
  Vars : Option Vars := none
  MatchErr : Option MatchErr := none
  deriving DecidableEq

/-- A route of a router without routes below it. -/
structure Route where
  matchers : List Matcher
  handler : Option Handler
  name : String
  deriving DecidableEq

/-- The loop of `Route.Match` over the matchers of a route: `none` when a
matcher other than the method matcher refuses the request, otherwise the error
kept for a refusal of the method matcher. -/
def matchersLoop (method path : String) :
    List Matcher → Option MatchErr → Option (Option MatchErr)
  | [], matchErr => some matchErr
  | m :: rest, matchErr =>
    if m.Match method path then matchersLoop method path rest matchErr
    else
      match m with
      | .Methods _ => matchersLoop method path rest (some MatchErr.ErrMethodMismatch)
      | _ => none

/-- The return of `Route.Match` on a refusal: an `ErrNotFound` left by a
subrouter is dropped. -/
def refused (m : RouteMatch) : Bool × RouteMatch :=
  (false, if m.MatchErr = some MatchErr.ErrNotFound then { m with MatchErr := none } else m)

/-- The end of `Route.Match` once every matcher has been tried and none but
the method matcher has refused. -/
def matched (matchErr : Option MatchErr) (handler : Option Handler) (name : String)
    (vars : Vars) (m : RouteMatch) : Bool × RouteMatch :=
  match matchErr with
  | some e => (false, { m with MatchErr := some e })
  | none =>
    let m1 : RouteMatch :=
      if m.MatchErr = some MatchErr.ErrMethodMismatch ∧ handler ≠ none then
        { m with MatchErr := none, Handler := handler }
      else m
    let m2 : RouteMatch := if m1.Route = none then { m1 with Route := some name } else m1
    let m3 : RouteMatch := if m2.Handler = none then { m2 with Handler := handler } else m2
    (true, { m3 with Vars := some (m3.Vars.getD [] ++ vars) })

/-- The method `Route.Match` of a route without routes below it. -/
def Route.Match (r : Route) (method path : String) (m : RouteMatch) : Bool × RouteMatch :=
  match matchersLoop method path r.matchers none with
  | none => refused m
  | some matchErr =>
    matched matchErr r.handler r.name ((r.matchers.map (fun x => x.vars path)).flatten) m

/-- The loop of `Router.Match` over the routes: the first route that matches
ends it. -/
def routesLoop (method path : String) : List Route → RouteMatch → Bool × RouteMatch
  | [], m => (false, m)
  | r :: rest, m =>
    match r.Match method path m with
    | (true, m1) => (true, m1)
    | (false, m1) => routesLoop method path rest m1

/-- The end of `Router.Match` when no route has matched, in a router without
handlers of its own for a wrong method and for a missing route. -/
def unmatched (m : RouteMatch) : Bool × RouteMatch :=
  if m.MatchErr = some MatchErr.ErrMethodMismatch then (false, m)
  else (false, { m with MatchErr := some MatchErr.ErrNotFound })

/-- The method `Router.Match` of the subrouter. -/
def subrouterMatch (routes : List Route) (method path : String) (m : RouteMatch) :
    Bool × RouteMatch :=
  match routesLoop method path routes m with
  | (true, m1) => (true, m1)
  | (false, m1) => unmatched m1

/-- A route of the main router: its own matchers and, for the route that
ends in `Subrouter()`, the routes of the subrouter, which is its last
matcher. -/
structure MainRoute where
  matchers : List Matcher
  subrouter : Option (List Route)
  handler : Option Handler
  name : String

/-- The method `Route.Match` of a route of the main router. -/
def MainRoute.Match (r : MainRoute) (method path : String) (m : RouteMatch) :
    Bool × RouteMatch :=
  match matchersLoop method path r.matchers none with
  | none => refused m
  | some matchErr =>
    match r.subrouter with
    | none => matched matchErr r.handler r.name [] m
    | some routes =>
      match subrouterMatch routes method path m with
      | (false, m1) => refused m1
      | (true, m1) => matched matchErr r.handler r.name [] m1

/-- The loop of `Router.Match` of the main router. -/
def mainRoutesLoop (method path : String) : List MainRoute → RouteMatch → Bool × RouteMatch
  | [], m => (false, m)
  | r :: rest, m =>
    match r.Match method path m with
    | (true, m1) => (true, m1)
    | (false, m1) => mainRoutesLoop method path rest m1

/-- Where `Router.ServeHTTP` sends a request: to a handler, with the
variables of the match, or to an answer of the router itself. -/
inductive Served where
  | handler (h : Handler) (vars : Vars)
  | methodNotAllowed
  | notFound
  | redirect (path : String)
  deriving DecidableEq

/-- The elements that `path.Clean` keeps of a rooted path, read from the
left: an empty element and `.` are dropped, `..` drops the element kept last,
if there is one. -/
def cleanElements : List (List Char) → List (List Char) → List (List Char)
  | [], kept => kept
  | seg :: rest, kept =>
    if seg = [] ∨ seg = [Char.ofNat 46] then cleanElements rest kept
    else if seg = [Char.ofNat 46, Char.ofNat 46] then cleanElements rest kept.dropLast
    else cleanElements rest (kept ++ [seg])

/-- The elements of a path, each after a slash. -/
def joinSlash : List (List Char) → List Char
  | [] => []
  | seg :: rest => Char.ofNat 47 :: (seg ++ joinSlash rest)

/-- The function `path.Clean` on a rooted path. -/
def pathClean (p : List Char) : List Char :=
  match cleanElements (splitSlash p) [] with
  | [] => [Char.ofNat 47]
  | seg :: rest => joinSlash (seg :: rest)

/-- The function `cleanPath` of the router: the canonical form of a path,
rooted, with a slash at the end if the path has one. -/
def cleanPath (p : String) : String :=
  if p = "" then "/"
  else
    let q := if p.toList.head? = some (Char.ofNat 47) then p.toList
      else Char.ofNat 47 :: p.toList
    let np := pathClean q
    if q.getLast? = some (Char.ofNat 47) ∧ np ≠ [Char.ofNat 47] then
      String.mk (np ++ [Char.ofNat 47])
    else String.mk np

/-- The end of `Router.ServeHTTP`, for a path in canonical form: the handler
of the match, or the answer of the router for a wrong method or a missing
route. -/
def dispatch (routes : List MainRoute) (method path : String) : Served :=
  let res :=
    match mainRoutesLoop method path routes {} with
    | (true, m1) => (true, m1)
    | (false, m1) => unmatched m1
  let handler := if res.1 then res.2.Handler else none
  match handler with
  | some h => Served.handler h (res.2.Vars.getD [])
  | none =>
    if res.2.MatchErr = some MatchErr.ErrMethodMismatch then Served.methodNotAllowed
    else Served.notFound

/-- The method `Router.ServeHTTP` of the main router, which `New` leaves with
`SkipClean` off: a path that is not in canonical form is answered by a
redirect (status 301) to its canonical form, before any matching and
whatever the method; a path in canonical form goes to the handler of the
match. -/
def ServeHTTP (routes : List MainRoute) (method path : String) : Served :=
  let p := cleanPath path
  if p ≠ path then Served.redirect p
  else dispatch routes method path

/-- The matchers of the route `router.Methods(POST, GET, PUT).PathPrefix("/api/v0")`,
which every route of its subrouter starts from. -/
def hijackMatchers : List Matcher :=
  [Matcher.Methods ["POST", "GET", "PUT"], Matcher.PathPrefix "/api/v0"]

/-- A route `hijackSubrouter.Path(tpl).HandlerFunc(h).Name(name)`: the
matchers of the subrouter and the template, which continues the prefix. -/
def hijackPath (tpl : String) (h : Handler) (name : String) : Route :=
  ⟨hijackMatchers ++ [Matcher.Path ("/api/v0" ++ tpl)], some h, name⟩

/-- The routes of `hijackSubrouter`, in the order `New` adds them. -/
def hijackSubrouter : List Route :=
  [hijackPath "/pin/add/\x7barg\x7d" (.slashHandler .pinHandler) "PinAddSlash",
   hijackPath "/pin/add" .pinHandler "PinAdd",
   hijackPath "/pin/rm/\x7barg\x7d" (.slashHandler .unpinHandler) "PinRmSlash",
   hijackPath "/pin/rm" .unpinHandler "PinRm",
   hijackPath "/pin/ls/\x7barg\x7d" (.slashHandler .pinLsHandler) "PinLsSlash",
   hijackPath "/pin/ls" .pinLsHandler "PinLs",
   hijackPath "/pin/update" .pinUpdateHandler "PinUpdate",
   hijackPath "/add" .addHandler "Add",
   hijackPath "/repo/stat" .repoStatHandler "RepoStat",
   hijackPath "/pin/ls/\x7barg\x7d" (.slashHandler .pinLsHandler) "PinLsSlash",
   hijackPath "/pin/ls" .pinLsHandler "PinLs",
   hijackPath "/uid/new" .uidNewHandler "UidNew",
   hijackPath "/uid/login" .uidLoginHandler "UidLogin",
   hijackPath "/file/add" .addHandler "FileAdd",
   hijackPath "/file/get" .fileGetHandler "FileGet",
   hijackPath "/file/cat" .fileCatHandler "FileCat",
   hijackPath "/files/cp" .filesCpHandler "FilesCp",
   hijackPath "/files/flush" .filesFlushHandler "FilesFlush",
   hijackPath "/files/ls" .filesLsHandler "FilesLs",
   hijackPath "/files/mkdir" .filesMkdirHandler "FilesMkdir",
   hijackPath "/files/mv" .filesMvHandler "FilesMv",
   hijackPath "/files/read" .filesReadHandler "FilesRead",
   hijackPath "/files/rm" .filesRmHandler "FilesRm",
   hijackPath "/files/stat" .filesStatHandler "FileStat",
   hijackPath "/files/write" .filesWriteHandler "FileWrite"]

/-- The routes of the router that `New` builds: the route of the hijacked
paths, then `router.PathPrefix("/").Handler(reverseProxy)`. -/
def router : List MainRoute :=
  [⟨hijackMatchers, some hijackSubrouter, none, ""⟩,
   ⟨[Matcher.PathPrefix "/"], none, some Handler.reverseProxy, ""⟩]

/-! ## The shim for a trailing argument -/

/-- The method `Values.Set`: the key gets the one value, in place of any it
had; the other keys keep their values.  (Where a key stands in the list is not
read by `index` and `Get`; `r.URL.RawQuery = q.Encode()` followed by the
handler's `r.URL.Query()` gives back the values that were encoded.) -/
def Values.Set (q : Values) (key value : String) : Values :=
  q.filter (fun kv => !(kv.1 == key)) ++ [(key, value)]

/-- The function `slashHandler`: the handler it returns, run on a request. -/
def slashHandler (origHandler : Env → Request → List Effect) (env : Env) (r : Request) :
    List Effect :=
  let warnMsg := "You are using an undocumented form of the IPFS API. "
    ++ "Consider passing your command arguments"
    ++ "with the '?arg=' query parameter"
  let vars := r.Vars
  let arg := (vars.lookup "arg").getD ""
  let q := r.Query.Set "arg" arg
  Effect.Log LogLevel.error warnMsg
    :: origHandler env { r with Query := q, URL := env.URLString r q }

/-- The handler function that a registered handler stands for; the handlers
of the `uid` and `file` endpoints and the reverse proxy are not embedded. -/
def Handler.run : Handler → Option (Env → Request → List Effect)
  | .pinHandler => some IpfsProxy.pinHandler
  | .unpinHandler => some IpfsProxy.unpinHandler
  | .pinLsHandler => some IpfsProxy.pinLsHandler
  | .pinUpdateHandler => some IpfsProxy.pinUpdateHandler
  | .addHandler => some IpfsProxy.addHandler
  | .repoStatHandler => some IpfsProxy.repoStatHandler
  | .filesCpHandler => some IpfsProxy.filesCpHandler
  | .filesFlushHandler => some IpfsProxy.filesFlushHandler
  | .filesLsHandler => some IpfsProxy.filesLsHandler
  | .filesMkdirHandler => some IpfsProxy.filesMkdirHandler
  | .filesMvHandler => some IpfsProxy.filesMvHandler
  | .filesReadHandler => some IpfsProxy.filesReadHandler
  | .filesRmHandler => some IpfsProxy.filesRmHandler
  | .filesStatHandler => some IpfsProxy.filesStatHandler
  | .filesWriteHandler => some IpfsProxy.filesWriteHandler
  | .slashHandler origHandler => (Handler.run origHandler).map IpfsProxy.slashHandler
  | _ => none

/-- The request `POST /api/v0/pin/ls/QmA?arg=QmOLD&quiet=1&arg=QmOLDER`, with the
variables of the route that matches it. -/
def slashRequest : Request :=
  { plainRequest "/api/v0/pin/ls/QmA?arg=QmOLD&quiet=1&arg=QmOLDER"
      [("arg", "QmOLD"), ("quiet", "1"), ("arg", "QmOLDER")] with
    Vars :=
      match ServeHTTP router "POST" "/api/v0/pin/ls/QmA" with
      | Served.handler _ vars => vars
      | _ => [] }

/-! ## The lifecycle of the server -/

/-- The fields of `Server` that `Shutdown` reads and writes: the flag
`shutdown`, whether the context has been cancelled, whether the channel
`rpcReady` has been closed, whether the HTTP server keeps connections alive,
and whether the listener has been closed. -/
structure Server where
  shutdown : Bool
  cancelled : Bool
  rpcReadyClosed : Bool
  keepAlivesEnabled : Bool
  listenerClosed : Bool
  deriving DecidableEq

/-- The steps of `Shutdown`. -/
inductive ServerEffect where
  | Lock
  | Unlock
  | Debug (msg : String)
  | Info (msg : String)
  | cancel
  | closeRpcReady
  | SetKeepAlivesEnabled (v : Bool)
  | listenerClose
  | wgWait
  deriving DecidableEq

/-- How a call ends: it returns an error (`none` for nil) or it panics. -/
inductive Outcome where
  | returned (err : Option GoError)
  | panicked (msg : String)
  deriving DecidableEq

/-- The server as `New` returns it. -/
def Server.New : Server :=
  { shutdown := false, cancelled := false, rpcReadyClosed := false,
    keepAlivesEnabled := true, listenerClosed := false }

/-- The method `Server.Shutdown`, calls of which the lock puts one after the
other: the server after the call, the steps of the call and how it ends.
Closing a channel that is closed already panics; the wait for the serving
task is taken to return. -/
def Server.Shutdown (proxy : Server) : Server × List ServerEffect × Outcome :=
  if proxy.shutdown then
    (proxy, [ServerEffect.Lock, ServerEffect.Debug "already shutdown", ServerEffect.Unlock],
      Outcome.returned none)
  else
    let p1 := { proxy with cancelled := true }
    if p1.rpcReadyClosed then
      (p1, [ServerEffect.Lock, ServerEffect.Info "stopping IPFS Proxy", ServerEffect.cancel,
          ServerEffect.Unlock],
        Outcome.panicked "close of closed channel")
    else
      let p2 := { p1 with rpcReadyClosed := true }
      let p3 := { p2 with keepAlivesEnabled := false }
      let p4 := { p3 with listenerClosed := true }
      ({ p4 with shutdown := true },
        [ServerEffect.Lock, ServerEffect.Info "stopping IPFS Proxy", ServerEffect.cancel,
          ServerEffect.closeRpcReady, ServerEffect.SetKeepAlivesEnabled false,
          ServerEffect.listenerClose, ServerEffect.wgWait, ServerEffect.Unlock],
        Outcome.returned none)

/-- The method `Shutdown` called a number of times in a row: the server at the
end, the steps of all the calls and how each call ended. -/
def Server.ShutdownTimes : Nat → Server → Server × List ServerEffect × List Outcome
  | 0, proxy => (proxy, [], [])
  | n + 1, proxy =>
    let first := proxy.Shutdown
    let others := Server.ShutdownTimes n first.1
    (others.1, first.2.1 ++ others.2.1, first.2.2 :: others.2.2)

/-- Whether the step stops something: the cancel, the close of the channel,
the switch of the keep-alives, the close of the listener, the wait. -/
def ServerEffect.stops : ServerEffect → Bool
  | ServerEffect.cancel => true
  | ServerEffect.closeRpcReady => true
  | ServerEffect.SetKeepAlivesEnabled _ => true
  | ServerEffect.listenerClose => true
  | ServerEffect.wgWait => true
  | _ => false

/-- The state of a server between calls: the channel `rpcReady` is closed
only by `Shutdown`, which sets the flag before it returns. -/
def Server.Consistent (proxy : Server) : Prop :=
  proxy.rpcReadyClosed = true → proxy.shutdown = true

end IpfsProxy

/-! ## The configuration of the basic monitor (`monitor/basic/config.go`) -/

namespace Basic

/-- A `time.Duration`: a number of nanoseconds. -/
abbrev Duration := Int

/-- The constant `time.Second`. -/
def Second : Duration := 1000000000

/-- The constant `DefaultCheckInterval`. -/
def DefaultCheckInterval : Duration := 15 * Second

/-- The struct `Config`, without the embedded `config.Saver`, which
`Default` and `Validate` do not touch. -/
structure Config where
  CheckInterval : Duration
  deriving DecidableEq

/-- The method `Config.Default`: the configuration after the call and the
error returned (`none` for nil). -/
def Config.Default (cfg : Config) : Config × Option String :=
  ({ cfg with CheckInterval := DefaultCheckInterval }, none)

/-- The method `Config.Validate`: the error returned, by its text (`none`
for nil). -/
def Config.Validate (cfg : Config) : Option String :=
  if cfg.CheckInterval ≤ 0 then some "basic.check_interval too low"
  else none

end Basic

namespace IpfsProxy

/-! ## Rendering lemmas -/

theorem flatMap_jsonEscapeChar_of_safe (l : List Char)
    (h : l.all jsonSafeChar = true) : l.flatMap jsonEscapeChar = l := by
  induction l with
  | nil => rfl
  | cons c cs ih =>
    simp only [List.all_cons, Bool.and_eq_true] at h
    have hc : jsonEscapeChar c = [c] := by simp [jsonEscapeChar, h.1]
    simp [List.flatMap_cons, hc, ih h.2]

theorem jsonString_of_plain (s : String) (h : jsonPlain s = true) :
    jsonString s = "\"" ++ s ++ "\"" := by
  have h2 : s.data.flatMap jsonEscapeChar = s.data :=
    flatMap_jsonEscapeChar_of_safe s.data h
  apply String.ext
  simp only [jsonString, String.toList, h2, String.data_append]
  rfl

/-! ## The error responder -/

/-- The effects of `ipfsErrorResponder` with the code `-1`, the one the
handlers pass for an error without a status of its own. -/
theorem ipfsErrorResponder_eq (m : String) :
    ipfsErrorResponder m (-1) =
      [Effect.WriteHeader 500,
       Effect.Write ("\x7b\"Message\":" ++ jsonString m ++ "\x7d")] := by
  simp [ipfsErrorResponder, ipfsError.Marshal, checkWriteHeaderCode]

/-- The effects of `ipfsErrorResponder` with a code that is zero, negative or
of three digits. -/
theorem ipfsErrorResponder_of_valid (m : String) (code : Int)
    (h : code ≤ 0 ∨ (100 ≤ code ∧ code ≤ 999)) :
    ipfsErrorResponder m code =
      [Effect.WriteHeader (if code > 0 then code else 500),
       Effect.Write ("\x7b\"Message\":" ++ jsonString m ++ "\x7d")] := by
  have hc : checkWriteHeaderCode (if code > 0 then code else 500) = true := by
    unfold checkWriteHeaderCode
    split
    · have h1 : 100 ≤ code ∧ code ≤ 999 := by omega
      simp only [Bool.not_eq_true', Bool.or_eq_false_iff, decide_eq_false_iff_not, not_lt]
      exact ⟨h1.1, h1.2⟩
    · decide
  simp only [ipfsErrorResponder, hc, if_true, ipfsError.Marshal]

/-- The effects of `ipfsErrorResponder` with a positive code that has not
three digits: the panic of `WriteHeader` and nothing else. -/
theorem ipfsErrorResponder_of_invalid (m : String) (code : Int)
    (h : 0 < code ∧ (code < 100 ∨ 999 < code)) :
    ipfsErrorResponder m code =
      [Effect.Panic ("invalid WriteHeader code " ++ toString code)] := by
  have h0 : code > 0 := h.1
  have hc : checkWriteHeaderCode code = false := by
    unfold checkWriteHeaderCode
    simp only [Bool.not_eq_false', Bool.or_eq_true, decide_eq_true_eq]
    exact h.2
  simp only [ipfsErrorResponder, h0, if_true, hc, Bool.false_eq_true, if_false]

/-- C5, as stated, fails: with the positive code 7 the call of `WriteHeader`
panics, so that neither the status 7 nor any body is written. -/
theorem ipfsErrorResponder_every_code_fails :
    ¬ (∀ (m : String) (code : Int),
        responseStatus (ipfsErrorResponder m code) = some (if code > 0 then code else 500)) := by
  intro h
  have h7 := h "boom" 7
  have h8 : responseStatus (ipfsErrorResponder "boom" 7) = none := by decide
  rw [h8] at h7
  exact Option.noConfusion h7

set_option maxRecDepth 100000 in
/-- C5, amended: for every message and every code that is zero, negative or
of three digits (100 to 999), `ipfsErrorResponder` performs exactly two
effects, first the status (`code` when it is positive, 500 otherwise), then
the body, the JSON object whose only field `Message` holds the message; for a
message without characters that JSON escapes the body is the message between
quotes, and the escapes are as in the message of the last part, which holds a
quote, a backslash, every control character, the three characters of HTML,
the two line separators and a letter outside ASCII.  For a positive code that
has not three digits the only effect is the panic of `WriteHeader`: no status
and no body. -/
theorem ipfsErrorResponder_status_then_body (m : String) (code : Int) :
    ((code ≤ 0 ∨ (100 ≤ code ∧ code ≤ 999)) →
        ipfsErrorResponder m code =
            [Effect.WriteHeader (if code > 0 then code else 500),
             Effect.Write ("\x7b\"Message\":" ++ jsonString m ++ "\x7d")]
          ∧ responseStatus (ipfsErrorResponder m code) = some (if code > 0 then code else 500)
          ∧ responseBody (ipfsErrorResponder m code) =
              "\x7b\"Message\":" ++ jsonString m ++ "\x7d"
          ∧ (jsonPlain m = true →
              responseBody (ipfsErrorResponder m code) =
                "\x7b\"Message\":\"" ++ m ++ "\"\x7d"))
      ∧ ((0 < code ∧ (code < 100 ∨ 999 < code)) →
        ipfsErrorResponder m code =
            [Effect.Panic ("invalid WriteHeader code " ++ toString code)]
          ∧ responseStatus (ipfsErrorResponder m code) = none
          ∧ responseBody (ipfsErrorResponder m code) = "")
      ∧ responseBody (ipfsErrorResponder
          "q\" b\\ \x00\x01\x02\x03\x04\x05\x06\x07\x08\t\n\x0b\x0c\r\x0e\x0f\x10\x11\x12\x13\x14\x15\x16\x17\x18\x19\x1a\x1b\x1c\x1d\x1e\x1f <>& \u2028\u2029 \x7f é"
          (-1)) =
        "\x7b\"Message\":\"q\\\" b\\\\ \\u0000\\u0001\\u0002\\u0003\\u0004\\u0005\\u0006\\u0007\\u0008\\t\\n\\u000b\\u000c\\r\\u000e\\u000f\\u0010\\u0011\\u0012\\u0013\\u0014\\u0015\\u0016\\u0017\\u0018\\u0019\\u001a\\u001b\\u001c\\u001d\\u001e\\u001f \\u003c\\u003e\\u0026 \\u2028\\u2029 \x7f é\"\x7d" := by
  refine ⟨?_, ?_, ?_⟩
  · intro hv
    have h0 := ipfsErrorResponder_of_valid m code hv
    refine ⟨h0, ?_, ?_, ?_⟩
    · rw [h0]; rfl
    · rw [h0]; simp [responseBody]
    · intro hp
      rw [h0]; simp only [responseBody, jsonString_of_plain m hp]
      apply String.ext
      simp only [String.data_append, List.append_assoc]
      rfl
  · intro hi
    have h0 := ipfsErrorResponder_of_invalid m code hi
    refine ⟨h0, ?_, ?_⟩ <;> rw [h0] <;> rfl
  · rw [ipfsErrorResponder_eq]
    simp only [responseBody]
    rfl

theorem ipfsErrorResponder_status_then_body_witness :
    responseStatus (ipfsErrorResponder "boom" (-1)) = some 500
      ∧ responseStatus (ipfsErrorResponder "boom" 400) = some 400
      ∧ responseBody (ipfsErrorResponder "boom" 0) = "\x7b\"Message\":\"boom\"\x7d"
      ∧ ipfsErrorResponder "boom" 1000 = [Effect.Panic "invalid WriteHeader code 1000"] :=
  ⟨((ipfsErrorResponder_status_then_body "boom" (-1)).1 (by decide)).2.1,
   ((ipfsErrorResponder_status_then_body "boom" 400).1 (by decide)).2.1,
   ((ipfsErrorResponder_status_then_body "boom" 0).1 (by decide)).2.2.2 (by decide),
   ((ipfsErrorResponder_status_then_body "boom" 1000).2.1 (by decide)).1⟩

/-! ## Pin operations -/

/-- C1: in `pinOpHandler` (run as `pin/add` with method `PinPath` and as
`pin/rm` with method `UnpinPath`), when `arg` parses to a path and the cluster
RPC answers with a pin, the effects are the headers, one RPC with that method
and the parsed path, status 200 and the body listing the CID of the pin under
`Pins`; when `arg` does not parse, the effects are the headers and an error
response of status 500, with no RPC. -/
theorem pinOpHandler_contract (env : Env) (r : Request) (op : String) :
    pinHandler env r = pinOpHandler env "PinPath" r
      ∧ unpinHandler env r = pinOpHandler env "UnpinPath" r
      ∧ (∀ p pin, env.ParsePath (r.Query.Get "arg") = .ok p →
          env.CallPin [Effect.setHeaders] ⟨"", "Cluster", op, .pinPath ⟨p, none⟩⟩ = .ok pin →
          pinOpHandler env op r =
              [Effect.setHeaders,
               Effect.Call ⟨"", "Cluster", op, .pinPath ⟨p, none⟩⟩,
               Effect.WriteHeader 200,
               Effect.Write ("\x7b\"Pins\":[" ++ jsonString pin.Cid.String ++ "]\x7d")]
            ∧ (pinOpHandler env op r).filter Effect.isRpc =
                [Effect.Call ⟨"", "Cluster", op, .pinPath ⟨p, none⟩⟩]
            ∧ responseStatus (pinOpHandler env op r) = some 200
            ∧ (jsonPlain pin.Cid.String = true →
                responseBody (pinOpHandler env op r) =
                  "\x7b\"Pins\":[\"" ++ pin.Cid.String ++ "\"]\x7d"))
      ∧ (∀ err, env.ParsePath (r.Query.Get "arg") = .error err →
          pinOpHandler env op r =
              [Effect.setHeaders, Effect.WriteHeader 500,
               Effect.Write ("\x7b\"Message\":"
                 ++ jsonString ("Error parsing IPFS Path: " ++ err.Error) ++ "\x7d")]
            ∧ (pinOpHandler env op r).filter Effect.isRpc = []
            ∧ responseStatus (pinOpHandler env op r) = some 500) := by
  refine ⟨rfl, rfl, ?_, ?_⟩
  · intro p pin hp hc
    have h0 : pinOpHandler env op r =
        [Effect.setHeaders,
         Effect.Call ⟨"", "Cluster", op, .pinPath ⟨p, none⟩⟩,
         Effect.WriteHeader 200,
         Effect.Write ("\x7b\"Pins\":[" ++ jsonString pin.Cid.String ++ "]\x7d")] := by
      simp [pinOpHandler, hp, hc, ipfsPinOpResp.Marshal, jsonJoin]
    refine ⟨h0, ?_, ?_, ?_⟩
    · rw [h0]; rfl
    · rw [h0]; rfl
    · intro hplain
      rw [h0]; simp only [responseBody, jsonString_of_plain _ hplain]
      apply String.ext
      simp only [String.data_append, List.append_assoc]
      rfl
  · intro err hp
    have h0 : pinOpHandler env op r =
        [Effect.setHeaders, Effect.WriteHeader 500,
         Effect.Write ("\x7b\"Message\":"
           ++ jsonString ("Error parsing IPFS Path: " ++ err.Error) ++ "\x7d")] := by
      simp [pinOpHandler, hp, ipfsErrorResponder_eq]
    refine ⟨h0, ?_, ?_⟩
    · rw [h0]; rfl
    · rw [h0]; rfl

theorem pinOpHandler_contract_witness :
    responseBody (pinHandler mockEnv (plainRequest "/api/v0/pin/add?arg=QmAAA" [("arg", "QmAAA")]))
        = "\x7b\"Pins\":[\"QmAAA\"]\x7d"
      ∧ (pinOpHandler mockEnv "UnpinPath" (plainRequest "/api/v0/pin/rm" [])).filter Effect.isRpc
        = [] :=
  ⟨((pinOpHandler_contract mockEnv
      (plainRequest "/api/v0/pin/add?arg=QmAAA" [("arg", "QmAAA")]) "PinPath").2.2.1
      "/ipfs/QmAAA" ⟨⟨"QmAAA"⟩⟩ rfl rfl).2.2.2 (by decide),
   ((pinOpHandler_contract mockEnv (plainRequest "/api/v0/pin/rm" []) "UnpinPath").2.2.2
      ⟨"empty path", false⟩ rfl).2.1⟩

/-- C3: `pinUpdateHandler` answers a request without `arg` values with status
400 and the message `argument "from-path" is required`, a request with exactly
one `arg` value with status 400 and the message `argument "to-path" is
required`, and in both cases performs nothing but the headers and the error
response: no RPC. -/
theorem pinUpdateHandler_missing_args (env : Env) (r : Request) :
    (r.Query.index "arg" = [] →
        pinUpdateHandler env r =
            [Effect.setHeaders, Effect.WriteHeader 400,
             Effect.Write (ipfsError.Marshal ⟨"argument \"from-path\" is required"⟩)]
          ∧ responseStatus (pinUpdateHandler env r) = some 400
          ∧ responseBody (pinUpdateHandler env r) =
              "\x7b\"Message\":\"argument \\\"from-path\\\" is required\"\x7d"
          ∧ (pinUpdateHandler env r).filter Effect.isRpc = [])
      ∧ ((r.Query.index "arg").length = 1 →
        pinUpdateHandler env r =
            [Effect.setHeaders, Effect.WriteHeader 400,
             Effect.Write (ipfsError.Marshal ⟨"argument \"to-path\" is required"⟩)]
          ∧ responseStatus (pinUpdateHandler env r) = some 400
          ∧ responseBody (pinUpdateHandler env r) =
              "\x7b\"Message\":\"argument \\\"to-path\\\" is required\"\x7d"
          ∧ (pinUpdateHandler env r).filter Effect.isRpc = []) := by
  constructor
  · intro h
    have h0 : pinUpdateHandler env r =
        [Effect.setHeaders, Effect.WriteHeader 400,
         Effect.Write (ipfsError.Marshal ⟨"argument \"from-path\" is required"⟩)] := by
      simp only [pinUpdateHandler, h]
      rfl
    refine ⟨h0, ?_, ?_, ?_⟩ <;> rw [h0] <;> decide
  · intro h
    obtain ⟨a, ha⟩ := List.length_eq_one.mp h
    have h0 : pinUpdateHandler env r =
        [Effect.setHeaders, Effect.WriteHeader 400,
         Effect.Write (ipfsError.Marshal ⟨"argument \"to-path\" is required"⟩)] := by
      simp only [pinUpdateHandler, ha]
      rfl
    refine ⟨h0, ?_, ?_, ?_⟩ <;> rw [h0] <;> decide

theorem pinUpdateHandler_missing_args_witness :
    responseStatus (pinUpdateHandler mockEnv (plainRequest "/api/v0/pin/update" [])) = some 400
      ∧ responseBody (pinUpdateHandler mockEnv
          (plainRequest "/api/v0/pin/update?arg=QmFROM" [("arg", "QmFROM")])) =
        "\x7b\"Message\":\"argument \\\"to-path\\\" is required\"\x7d" :=
  ⟨((pinUpdateHandler_missing_args mockEnv (plainRequest "/api/v0/pin/update" [])).1
      (by decide)).2.1,
   ((pinUpdateHandler_missing_args mockEnv
      (plainRequest "/api/v0/pin/update?arg=QmFROM" [("arg", "QmFROM")])).2
      (by decide)).2.2.1⟩

/-- C2: in `pinUpdateHandler`, when there are at least two `arg` values, both
parse, and every RPC succeeds, the effects are the headers, then
`IPFSConnector.Resolve` of the from-path, then `Cluster.PinPath` of the to-path
with `PinUpdate` set to the resolved CID, then (only when `unpin` is not the
text `false`) `Cluster.Unpin` of the resolved CID, then status 200 and the body
listing the from-CID and the CID of the new pin, in this order. -/
theorem pinUpdateHandler_order (env : Env) (r : Request)
    (from_ to_ : String) (rest : List String) (pFrom pTo : String)
    (fromCid : Cid) (pin : Pin)
    (hargs : r.Query.index "arg" = from_ :: to_ :: rest)
    (hfrom : env.ParsePath from_ = .ok pFrom)
    (hto : env.ParsePath to_ = .ok pTo)
    (hresolve : env.CallCid [Effect.setHeaders]
        ⟨"", "IPFSConnector", "Resolve", .str pFrom⟩ = .ok fromCid)
    (hpin : env.CallPin
        [Effect.setHeaders, Effect.Call ⟨"", "IPFSConnector", "Resolve", .str pFrom⟩]
        ⟨"", "Cluster", "PinPath", .pinPath ⟨pTo, some fromCid⟩⟩ = .ok pin)
    (hunpin : r.Query.Get "unpin" ≠ "false" → ∃ pinObj, env.CallPin
        [Effect.setHeaders, Effect.Call ⟨"", "IPFSConnector", "Resolve", .str pFrom⟩,
         Effect.Call ⟨"", "Cluster", "PinPath", .pinPath ⟨pTo, some fromCid⟩⟩]
        ⟨"", "Cluster", "Unpin", .PinCid fromCid⟩ = .ok pinObj) :
    pinUpdateHandler env r =
        [Effect.setHeaders,
         Effect.Call ⟨"", "IPFSConnector", "Resolve", .str pFrom⟩,
         Effect.Call ⟨"", "Cluster", "PinPath", .pinPath ⟨pTo, some fromCid⟩⟩]
        ++ (if r.Query.Get "unpin" = "false" then []
            else [Effect.Call ⟨"", "Cluster", "Unpin", .PinCid fromCid⟩])
        ++ [Effect.WriteHeader 200,
            Effect.Write ("\x7b\"Pins\":[" ++ jsonString fromCid.String ++ ","
              ++ jsonString pin.Cid.String ++ "]\x7d")]
      ∧ ((∃ c ∈ rpcCalls (pinUpdateHandler env r), c.svcMethod = "Unpin")
          ↔ r.Query.Get "unpin" ≠ "false")
      ∧ responseStatus (pinUpdateHandler env r) = some 200
      ∧ (jsonPlain fromCid.String = true → jsonPlain pin.Cid.String = true →
          responseBody (pinUpdateHandler env r) =
            "\x7b\"Pins\":[\"" ++ fromCid.String ++ "\",\"" ++ pin.Cid.String ++ "\"]\x7d") := by
  have h0 : pinUpdateHandler env r =
        [Effect.setHeaders,
         Effect.Call ⟨"", "IPFSConnector", "Resolve", .str pFrom⟩,
         Effect.Call ⟨"", "Cluster", "PinPath", .pinPath ⟨pTo, some fromCid⟩⟩]
        ++ (if r.Query.Get "unpin" = "false" then []
            else [Effect.Call ⟨"", "Cluster", "Unpin", .PinCid fromCid⟩])
        ++ [Effect.WriteHeader 200,
            Effect.Write ("\x7b\"Pins\":[" ++ jsonString fromCid.String ++ ","
              ++ jsonString pin.Cid.String ++ "]\x7d")] := by
    by_cases hu : r.Query.Get "unpin" = "false"
    · simp [pinUpdateHandler, hargs, hfrom, hto, hresolve, hpin, hu,
        ipfsPinOpResp.Marshal, jsonJoin, String.append_assoc]
    · obtain ⟨pinObj, hobj⟩ := hunpin hu
      simp [pinUpdateHandler, hargs, hfrom, hto, hresolve, hpin, hu, hobj,
        ipfsPinOpResp.Marshal, jsonJoin, String.append_assoc]
  refine ⟨h0, ?_, ?_, ?_⟩
  · rw [h0]
    by_cases hu : r.Query.Get "unpin" = "false"
    · simp [hu, rpcCalls]
    · simp [hu, rpcCalls]
  · rw [h0]
    by_cases hu : r.Query.Get "unpin" = "false" <;> simp [hu, responseStatus]
  · intro h1 h2
    rw [h0]
    have hb : ∀ x : List Effect,
        responseBody ([Effect.setHeaders,
          Effect.Call ⟨"", "IPFSConnector", "Resolve", .str pFrom⟩,
          Effect.Call ⟨"", "Cluster", "PinPath", .pinPath ⟨pTo, some fromCid⟩⟩]
          ++ (if r.Query.Get "unpin" = "false" then []
            else [Effect.Call ⟨"", "Cluster", "Unpin", .PinCid fromCid⟩]) ++ x)
        = responseBody x := by
      intro x
      by_cases hu : r.Query.Get "unpin" = "false" <;> simp [hu, responseBody]
    rw [hb]
    simp only [responseBody, jsonString_of_plain _ h1, jsonString_of_plain _ h2]
    apply String.ext
    simp only [String.data_append, List.append_assoc]
    rfl

theorem pinUpdateHandler_order_witness :
    rpcCalls (pinUpdateHandler mockEnv (plainRequest "/api/v0/pin/update"
        [("arg", "/ipfs/QmFROM"), ("arg", "/ipfs/QmTO")])) =
        [⟨"", "IPFSConnector", "Resolve", .str "/ipfs/QmFROM"⟩,
         ⟨"", "Cluster", "PinPath", .pinPath ⟨"/ipfs/QmTO", some ⟨"QmFROM"⟩⟩⟩,
         ⟨"", "Cluster", "Unpin", .PinCid ⟨"QmFROM"⟩⟩]
      ∧ responseBody (pinUpdateHandler mockEnv (plainRequest "/api/v0/pin/update"
        [("arg", "/ipfs/QmFROM"), ("arg", "/ipfs/QmTO")])) =
        "\x7b\"Pins\":[\"QmFROM\",\"QmTO\"]\x7d" :=
  have h := pinUpdateHandler_order mockEnv (plainRequest "/api/v0/pin/update"
      [("arg", "/ipfs/QmFROM"), ("arg", "/ipfs/QmTO")])
      "/ipfs/QmFROM" "/ipfs/QmTO" [] "/ipfs/QmFROM" "/ipfs/QmTO" ⟨"QmFROM"⟩ ⟨⟨"QmTO"⟩⟩
      (by decide) rfl rfl rfl rfl (fun _ => ⟨⟨⟨"QmFROM"⟩⟩, rfl⟩)
  ⟨by rw [h.1]; decide, h.2.2.2 (by decide) (by decide)⟩

/-! ## String-keyed maps -/

theorem charsLt_irrefl (a : List Char) : charsLt a a = false := by
  induction a with
  | nil => rfl
  | cons c cs ih => simp [charsLt, ih]

theorem charsLt_trans (a b c : List Char) (hab : charsLt a b = true)
    (hbc : charsLt b c = true) : charsLt a c = true := by
  induction a generalizing b c with
  | nil =>
    cases b with
    | nil => simp [charsLt] at hab
    | cons y ys =>
      cases c with
      | nil => simp [charsLt] at hbc
      | cons z zs => simp [charsLt]
  | cons x xs ih =>
    cases b with
    | nil => simp [charsLt] at hab
    | cons y ys =>
      cases c with
      | nil => simp [charsLt] at hbc
      | cons z zs =>
        simp only [charsLt, Bool.or_eq_true, decide_eq_true_eq, Bool.and_eq_true,
          beq_iff_eq] at hab hbc ⊢
        rcases hab with h1 | ⟨h1, h1t⟩
        · rcases hbc with h2 | ⟨h2, _⟩
          · left; omega
          · left; omega
        · rcases hbc with h2 | ⟨h2, h2t⟩
          · left; omega
          · right; exact ⟨by omega, ih ys zs h1t h2t⟩

theorem charsLt_total (a b : List Char) (hab : charsLt a b = false) (hne : a ≠ b) :
    charsLt b a = true := by
  induction a generalizing b with
  | nil =>
    cases b with
    | nil => exact absurd rfl hne
    | cons y ys => simp [charsLt] at hab
  | cons x xs ih =>
    cases b with
    | nil => simp [charsLt]
    | cons y ys =>
      simp only [charsLt, Bool.or_eq_false_iff, decide_eq_false_iff_not,
        Bool.and_eq_false_imp, beq_iff_eq] at hab
      simp only [charsLt, Bool.or_eq_true, decide_eq_true_eq, Bool.and_eq_true, beq_iff_eq]
      by_cases hxy : x.toNat = y.toNat
      · right
        have hc : x = y := by
          apply Char.eq_of_val_eq
          apply UInt32.ext
          exact hxy
        refine ⟨hxy.symm, ih ys (hab.2 hxy) ?_⟩
        intro h; exact hne (by rw [hc, h])
      · left; omega

theorem StrMap.keys_set {V : Type} (m : StrMap V) (k : String) (v : V) (k1 : String) :
    k1 ∈ (m.set k v).map Prod.fst ↔ k1 = k ∨ k1 ∈ m.map Prod.fst := by
  induction m with
  | nil => simp [StrMap.set]
  | cons kv rest ih =>
    obtain ⟨k0, v0⟩ := kv
    unfold StrMap.set
    split
    · simp
    · split
      · rename_i h; subst h; simp
      · simp only [List.map_cons, List.mem_cons, ih]
        tauto

theorem StrMap.values_set {V : Type} (m : StrMap V) (k : String) (v : V) (P : V → Prop)
    (hm : ∀ kv ∈ m, P kv.2) (hv : P v) : ∀ kv ∈ m.set k v, P kv.2 := by
  induction m with
  | nil => simp [StrMap.set, hv]
  | cons kv rest ih =>
    obtain ⟨k0, v0⟩ := kv
    unfold StrMap.set
    split
    · intro kv1 h1
      rcases List.mem_cons.mp h1 with h | h
      · rw [h]; exact hv
      · exact hm kv1 h
    · split
      · intro kv1 h1
        rcases List.mem_cons.mp h1 with h | h
        · rw [h]; exact hv
        · exact hm kv1 (List.mem_cons_of_mem _ h)
      · intro kv1 h1
        rcases List.mem_cons.mp h1 with h | h
        · rw [h]; exact hm (k0, v0) (List.mem_cons_self _ _)
        · exact ih (fun kv2 h2 => hm kv2 (List.mem_cons_of_mem _ h2)) kv1 h

theorem StrMap.sorted_set {V : Type} (m : StrMap V) (k : String) (v : V)
    (hm : StrMap.Sorted m) : StrMap.Sorted (m.set k v) := by
  induction m with
  | nil => simp [StrMap.set, StrMap.Sorted]
  | cons kv rest ih =>
    obtain ⟨k0, v0⟩ := kv
    unfold StrMap.Sorted at hm ih ⊢
    rw [List.pairwise_cons] at hm
    unfold StrMap.set
    split
    · rename_i hlt
      rw [List.pairwise_cons]
      refine ⟨?_, List.pairwise_cons.mpr hm⟩
      intro b hb
      rcases List.mem_cons.mp hb with h | h
      · rw [h]; exact hlt
      · exact charsLt_trans _ _ _ hlt (hm.1 b h)
    · split
      · rename_i heq
        subst heq
        exact List.pairwise_cons.mpr hm
      · rename_i hnlt hne
        have hgt : charsLt k0.toList k.toList = true := by
          apply charsLt_total
          · simpa using hnlt
          · intro h; exact hne (String.ext h)
        rw [List.pairwise_cons]
        refine ⟨?_, ih hm.2⟩
        intro b hb
        have hb1 : b.1 ∈ (StrMap.set rest k v).map Prod.fst := List.mem_map_of_mem _ hb
        rcases (StrMap.keys_set rest k v b.1).mp hb1 with h | h
        · rw [h]; exact hgt
        · obtain ⟨b2, hb2, hb3⟩ := List.mem_map.mp h
          rw [← hb3]; exact hm.1 b2 hb2

theorem StrMap.nodup_keys {V : Type} (m : StrMap V) (hm : StrMap.Sorted m) :
    (m.map Prod.fst).Nodup := by
  unfold StrMap.Sorted at hm
  rw [List.Nodup, List.pairwise_map]
  refine hm.imp ?_
  intro a b hab heq
  rw [heq, charsLt_irrefl] at hab
  exact Bool.noConfusion hab

theorem pinLsKeys_keys (pins : List Pin) (m : StrMap ipfsPinType) (k : String) :
    k ∈ (pinLsKeys pins m).map Prod.fst ↔
      (∃ pin ∈ pins, pin.Cid.String = k) ∨ k ∈ m.map Prod.fst := by
  induction pins generalizing m with
  | nil => simp [pinLsKeys]
  | cons p ps ih =>
    have h := ih (m.set p.Cid.String ⟨"recursive"⟩)
    simp only [pinLsKeys, List.foldl_cons] at h ⊢
    rw [h, StrMap.keys_set]
    simp only [List.mem_cons, exists_eq_or_imp]
    constructor
    · rintro (h1 | h1 | h1)
      · exact Or.inl (Or.inr h1)
      · exact Or.inl (Or.inl h1.symm)
      · exact Or.inr h1
    · rintro ((h1 | h1) | h1)
      · exact Or.inr (Or.inl h1.symm)
      · exact Or.inl h1
      · exact Or.inr (Or.inr h1)

theorem pinLsKeys_values (pins : List Pin) (m : StrMap ipfsPinType)
    (hm : ∀ kv ∈ m, kv.2 = ⟨"recursive"⟩) :
    ∀ kv ∈ pinLsKeys pins m, kv.2 = ⟨"recursive"⟩ := by
  induction pins generalizing m with
  | nil => simpa [pinLsKeys] using hm
  | cons p ps ih =>
    have h := ih (m.set p.Cid.String ⟨"recursive"⟩)
      (StrMap.values_set m _ _ (fun v => v = ⟨"recursive"⟩) hm rfl)
    simpa only [pinLsKeys, List.foldl_cons] using h

theorem pinLsKeys_sorted (pins : List Pin) (m : StrMap ipfsPinType)
    (hm : StrMap.Sorted m) : StrMap.Sorted (pinLsKeys pins m) := by
  induction pins generalizing m with
  | nil => simpa [pinLsKeys] using hm
  | cons p ps ih =>
    have h := ih (m.set p.Cid.String ⟨"recursive"⟩) (StrMap.sorted_set m _ _ hm)
    simpa only [pinLsKeys, List.foldl_cons] using h

/-- C4: in `pinLsHandler`, when the RPC succeeds the status is 200 and the
body is the `Keys` object: with a non-empty `arg` it holds the CID of the pin
`PinGet` returned, mapped to type `recursive`; with an empty `arg` its keys
are exactly the CID texts of the pins `Pins` returned, each once and each
mapped to type `recursive`.  When `arg` is non-empty and `PinGet` fails, the
message of the error response is `Error: path '<arg>' is not pinned`. -/
theorem pinLsHandler_keys (env : Env) (r : Request) :
    (∀ c pin, r.Query.Get "arg" ≠ "" → env.Decode (r.Query.Get "arg") = .ok c →
        env.CallPin [Effect.setHeaders] ⟨"", "Cluster", "PinGet", .cid c⟩ = .ok pin →
        pinLsHandler env r =
            [Effect.setHeaders, Effect.Call ⟨"", "Cluster", "PinGet", .cid c⟩,
             Effect.WriteHeader 200,
             Effect.Write ("\x7b\"Keys\":\x7b" ++ jsonString pin.Cid.String
               ++ ":\x7b\"Type\":\"recursive\"\x7d\x7d\x7d")]
          ∧ responseStatus (pinLsHandler env r) = some 200)
      ∧ (∀ pins, r.Query.Get "arg" = "" →
        env.CallPins [Effect.setHeaders] ⟨"", "Cluster", "Pins", .empty⟩ = .ok pins →
        pinLsHandler env r =
            [Effect.setHeaders, Effect.Call ⟨"", "Cluster", "Pins", .empty⟩,
             Effect.WriteHeader 200,
             Effect.Write (ipfsPinLsResp.Marshal ⟨pinLsKeys pins []⟩)]
          ∧ responseStatus (pinLsHandler env r) = some 200
          ∧ (∀ k, k ∈ (pinLsKeys pins []).map Prod.fst ↔ ∃ pin ∈ pins, pin.Cid.String = k)
          ∧ (∀ kv ∈ pinLsKeys pins [], kv.2 = ⟨"recursive"⟩)
          ∧ ((pinLsKeys pins []).map Prod.fst).Nodup)
      ∧ (∀ c err, r.Query.Get "arg" ≠ "" → env.Decode (r.Query.Get "arg") = .ok c →
        env.CallPin [Effect.setHeaders] ⟨"", "Cluster", "PinGet", .cid c⟩ = .error err →
        pinLsHandler env r =
            [Effect.setHeaders, Effect.Call ⟨"", "Cluster", "PinGet", .cid c⟩,
             Effect.WriteHeader 500,
             Effect.Write ("\x7b\"Message\":"
               ++ jsonString ("Error: path '" ++ r.Query.Get "arg" ++ "' is not pinned")
               ++ "\x7d")]) := by
  refine ⟨?_, ?_, ?_⟩
  · intro c pin harg hdec hcall
    have hj : jsonString "recursive" = "\"recursive\"" := by decide
    have h0 : pinLsHandler env r =
        [Effect.setHeaders, Effect.Call ⟨"", "Cluster", "PinGet", .cid c⟩,
         Effect.WriteHeader 200,
         Effect.Write ("\x7b\"Keys\":\x7b" ++ jsonString pin.Cid.String
           ++ ":\x7b\"Type\":\"recursive\"\x7d\x7d\x7d")] := by
      simp only [pinLsHandler, harg, hdec, hcall, ipfsPinLsResp.Marshal, StrMap.set,
        ipfsPinType.Marshal, jsonJoin, hj, List.map, ne_eq, not_false_eq_true, if_true,
        List.cons_append, List.nil_append, List.cons.injEq, true_and, and_true,
        Effect.Write.injEq]
      apply String.ext
      simp only [String.data_append, List.append_assoc]
      rfl
    exact ⟨h0, by rw [h0]; rfl⟩
  · intro pins harg hcall
    have h0 : pinLsHandler env r =
        [Effect.setHeaders, Effect.Call ⟨"", "Cluster", "Pins", .empty⟩,
         Effect.WriteHeader 200,
         Effect.Write (ipfsPinLsResp.Marshal ⟨pinLsKeys pins []⟩)] := by
      simp [pinLsHandler, harg, hcall]
    refine ⟨h0, by rw [h0]; rfl, ?_, ?_, ?_⟩
    · intro k
      rw [pinLsKeys_keys]
      simp
    · exact pinLsKeys_values pins [] (by simp)
    · exact StrMap.nodup_keys _ (pinLsKeys_sorted pins [] (by simp [StrMap.Sorted]))
  · intro c err harg hdec hcall
    simp [pinLsHandler, harg, hdec, hcall, ipfsErrorResponder_eq]

theorem pinLsHandler_keys_witness :
    responseBody (pinLsHandler mockEnv (plainRequest "/api/v0/pin/ls" [])) =
        "\x7b\"Keys\":\x7b\"QmA\":\x7b\"Type\":\"recursive\"\x7d,\"QmB\":\x7b\"Type\":\"recursive\"\x7d\x7d\x7d"
      ∧ responseBody (pinLsHandler mockEnv
          (plainRequest "/api/v0/pin/ls?arg=QmA" [("arg", "QmA")])) =
        "\x7b\"Keys\":\x7b\"QmA\":\x7b\"Type\":\"recursive\"\x7d\x7d\x7d"
      ∧ responseBody (pinLsHandler downEnv
          (plainRequest "/api/v0/pin/ls?arg=QmA" [("arg", "QmA")])) =
        "\x7b\"Message\":\"Error: path 'QmA' is not pinned\"\x7d" :=
  ⟨by
    rw [((pinLsHandler_keys mockEnv (plainRequest "/api/v0/pin/ls" [])).2.1
      [⟨⟨"QmB"⟩⟩, ⟨⟨"QmA"⟩⟩] (by decide) rfl).1]
    decide,
   by
    rw [((pinLsHandler_keys mockEnv
      (plainRequest "/api/v0/pin/ls?arg=QmA" [("arg", "QmA")])).1
      ⟨"QmA"⟩ ⟨⟨"QmA"⟩⟩ (by decide) rfl rfl).1]
    decide,
   by
    rw [(pinLsHandler_keys downEnv
      (plainRequest "/api/v0/pin/ls?arg=QmA" [("arg", "QmA")])).2.2
      ⟨"QmA"⟩ ⟨"rpc down", false⟩ (by decide) rfl rfl]
    decide⟩

/-! ## Repo stat -/

theorem responseStatus_logs_append (logs rest : List Effect)
    (h : ∀ e ∈ logs, e.isLog = true) :
    responseStatus (logs ++ rest) = responseStatus rest := by
  induction logs with
  | nil => rfl
  | cons e es ih =>
    have he := h e (List.mem_cons_self _ _)
    have ih2 := ih (fun x hx => h x (List.mem_cons_of_mem _ hx))
    cases e <;> simp [Effect.isLog] at he
    simpa [responseStatus] using ih2

theorem responseBody_logs_append (logs rest : List Effect)
    (h : ∀ e ∈ logs, e.isLog = true) :
    responseBody (logs ++ rest) = responseBody rest := by
  induction logs with
  | nil => rfl
  | cons e es ih =>
    have he := h e (List.mem_cons_self _ _)
    have ih2 := ih (fun x hx => h x (List.mem_cons_of_mem _ hx))
    cases e <;> simp [Effect.isLog] at he
    simpa [responseBody] using ih2

theorem filter_isRpc_logs_append (logs rest : List Effect)
    (h : ∀ e ∈ logs, e.isLog = true) :
    (logs ++ rest).filter Effect.isRpc = rest.filter Effect.isRpc := by
  induction logs with
  | nil => rfl
  | cons e es ih =>
    have he := h e (List.mem_cons_self _ _)
    have ih2 := ih (fun x hx => h x (List.mem_cons_of_mem _ hx))
    cases e <;> simp [Effect.isLog] at he
    simpa [Effect.isRpc] using ih2

/-- The loop only appends log lines to the log it is given. -/
theorem repoStatLoop_logs (outcomes : List (PeerID × IPFSRepoStat × Option GoError))
    (totalStats : IPFSRepoStat) (logs : List Effect) :
    ∃ extra, (repoStatLoop outcomes (totalStats, logs)).2 = logs ++ extra
      ∧ ∀ e ∈ extra, e.isLog = true := by
  induction outcomes generalizing totalStats logs with
  | nil => exact ⟨[], by simp [repoStatLoop]⟩
  | cons o os ih =>
    obtain ⟨peer, st, err⟩ := o
    cases err with
    | none =>
      simp only [repoStatLoop]
      exact ih _ _
    | some err =>
      simp only [repoStatLoop]
      split
      · obtain ⟨extra, h1, h2⟩ := ih totalStats (logs ++ [Effect.Log LogLevel.debug err.Error])
        refine ⟨Effect.Log LogLevel.debug err.Error :: extra, ?_, ?_⟩
        · rw [h1]; simp
        · intro e he
          rcases List.mem_cons.mp he with h | h
          · rw [h]; rfl
          · exact h2 e h
      · obtain ⟨extra, h1, h2⟩ := ih totalStats
          (logs ++ [Effect.Log LogLevel.error (peer ++ " repo/stat errored: " ++ err.Error)])
        refine ⟨Effect.Log LogLevel.error (peer ++ " repo/stat errored: " ++ err.Error)
          :: extra, ?_, ?_⟩
        · rw [h1]; simp
        · intro e he
          rcases List.mem_cons.mp he with h | h
          · rw [h]; rfl
          · exact h2 e h

/-- The totals of the loop: the totals it starts from plus the sums over the
outcomes without error, in unsigned 64-bit arithmetic. -/
theorem repoStatLoop_totals (outcomes : List (PeerID × IPFSRepoStat × Option GoError))
    (totalStats : IPFSRepoStat) (logs : List Effect)
    (h1 : totalStats.RepoSize < 2 ^ 64) (h2 : totalStats.StorageMax < 2 ^ 64) :
    (repoStatLoop outcomes (totalStats, logs)).1.RepoSize =
        (totalStats.RepoSize
          + ((outcomes.filter (fun o => o.2.2.isNone)).map (fun o => o.2.1.RepoSize)).sum)
          % 2 ^ 64
      ∧ (repoStatLoop outcomes (totalStats, logs)).1.StorageMax =
        (totalStats.StorageMax
          + ((outcomes.filter (fun o => o.2.2.isNone)).map (fun o => o.2.1.StorageMax)).sum)
          % 2 ^ 64 := by
  induction outcomes generalizing totalStats logs with
  | nil =>
    simp only [repoStatLoop, List.filter_nil, List.map_nil, List.sum_nil, Nat.add_zero]
    exact ⟨(Nat.mod_eq_of_lt h1).symm, (Nat.mod_eq_of_lt h2).symm⟩
  | cons o os ih =>
    obtain ⟨peer, st, err⟩ := o
    cases err with
    | none =>
      simp only [repoStatLoop]
      have h := ih ⟨(totalStats.RepoSize + st.RepoSize) % 2 ^ 64,
        (totalStats.StorageMax + st.StorageMax) % 2 ^ 64⟩ logs
        (Nat.mod_lt _ (by norm_num)) (Nat.mod_lt _ (by norm_num))
      rw [h.1, h.2]
      simp only [List.filter_cons, Option.isNone_none, if_true, List.map_cons, List.sum_cons]
      constructor
      · rw [Nat.mod_add_mod, Nat.add_assoc]
      · rw [Nat.mod_add_mod, Nat.add_assoc]
    | some err =>
      simp only [repoStatLoop]
      split
      · simpa using ih totalStats _ h1 h2
      · simpa using ih totalStats _ h1 h2

/-- The sum of a field over the outcomes without error is the sum over the
indices of the peers whose call returned no error. -/
theorem sum_successes_by_index (F : Nat → IPFSRepoStat × Option GoError)
    (peers : List PeerID) (g : IPFSRepoStat → Nat) :
    (((peers.enum.map (fun ip => (ip.2, F ip.1))).filter
        (fun o => o.2.2.isNone)).map (fun o => g o.2.1)).sum =
      (((List.range peers.length).filter (fun i => (F i).2.isNone)).map
        (fun i => g (F i).1)).sum := by
  have h : (peers.enum.map (fun ip => (ip.2, F ip.1))).map Prod.snd =
      (List.range peers.length).map F := by
    rw [List.map_map, ← List.enum_map_fst peers, List.map_map]
    rfl
  have h1 : ((peers.enum.map (fun ip => (ip.2, F ip.1))).filter
      (fun o => o.2.2.isNone)).map (fun o => g o.2.1) =
      (((peers.enum.map (fun ip => (ip.2, F ip.1))).map Prod.snd).filter
        (fun x => x.2.isNone)).map (fun x => g x.1) := by
    simp only [List.filter_map, List.map_map, Function.comp_def]
  have h2 : (((List.range peers.length).map F).filter (fun x => x.2.isNone)).map
      (fun x => g x.1) =
      ((List.range peers.length).filter (fun i => (F i).2.isNone)).map
        (fun i => g (F i).1) := by
    simp only [List.filter_map, List.map_map, Function.comp_def]
  rw [h1, h, h2]

/-- C6: in `repoStatHandler`, once `Consensus.Peers` has answered, whatever
the peers and whatever the fan-out of `RepoStat` returns for each of them,
the RPCs are the `Peers` call and the fan-out, the status is 200, and the body
gives as `RepoSize` and as `StorageMax` the sum, modulo 2^64, of that field of
the reply over the peers (taken by their index) whose call returned no error;
a peer with an error, of authorization or not, adds nothing, whatever its
reply slot holds, and there is no error response.  The outcome the loop reads
at an index is the peer at that index with the reply and the error of the
fan-out for it. -/
theorem repoStatHandler_sums_successes (env : Env) (r : Request) (peers : List PeerID)
    (hpeers : env.CallPeers [Effect.setHeaders] ⟨"", "Consensus", "Peers", .empty⟩
      = .ok peers) :
    responseStatus (repoStatHandler env r) = some 200
      ∧ responseBody (repoStatHandler env r) =
        "\x7b\"RepoSize\":"
          ++ toString ((((List.range peers.length).filter (fun i =>
                (env.MultiCallRepoStat
                  [Effect.setHeaders, Effect.Call ⟨"", "Consensus", "Peers", .empty⟩]
                  peers i).2.isNone)).map (fun i =>
                (env.MultiCallRepoStat
                  [Effect.setHeaders, Effect.Call ⟨"", "Consensus", "Peers", .empty⟩]
                  peers i).1.RepoSize)).sum % 2 ^ 64)
          ++ ",\"StorageMax\":"
          ++ toString ((((List.range peers.length).filter (fun i =>
                (env.MultiCallRepoStat
                  [Effect.setHeaders, Effect.Call ⟨"", "Consensus", "Peers", .empty⟩]
                  peers i).2.isNone)).map (fun i =>
                (env.MultiCallRepoStat
                  [Effect.setHeaders, Effect.Call ⟨"", "Consensus", "Peers", .empty⟩]
                  peers i).1.StorageMax)).sum % 2 ^ 64)
          ++ "\x7d"
      ∧ (repoStatHandler env r).filter Effect.isRpc =
        [Effect.Call ⟨"", "Consensus", "Peers", .empty⟩,
         Effect.MultiCall peers "IPFSConnector" "RepoStat"]
      ∧ (repoStatOutcomes env
          [Effect.setHeaders, Effect.Call ⟨"", "Consensus", "Peers", .empty⟩] peers).map
            (fun o => o.1) = peers
      ∧ (repoStatOutcomes env
          [Effect.setHeaders, Effect.Call ⟨"", "Consensus", "Peers", .empty⟩] peers).map
            (fun o => o.2) =
          (List.range peers.length).map (env.MultiCallRepoStat
            [Effect.setHeaders, Effect.Call ⟨"", "Consensus", "Peers", .empty⟩] peers) := by
  obtain ⟨extra, hlog, hextra⟩ := repoStatLoop_logs (repoStatOutcomes env
    [Effect.setHeaders, Effect.Call ⟨"", "Consensus", "Peers", .empty⟩] peers) ⟨0, 0⟩ []
  have htot := repoStatLoop_totals (repoStatOutcomes env
    [Effect.setHeaders, Effect.Call ⟨"", "Consensus", "Peers", .empty⟩] peers) ⟨0, 0⟩ []
    (by norm_num) (by norm_num)
  simp only [List.nil_append, Nat.zero_add] at hlog htot
  have hsize := sum_successes_by_index (env.MultiCallRepoStat
    [Effect.setHeaders, Effect.Call ⟨"", "Consensus", "Peers", .empty⟩] peers) peers
    (fun st => st.RepoSize)
  have hmax := sum_successes_by_index (env.MultiCallRepoStat
    [Effect.setHeaders, Effect.Call ⟨"", "Consensus", "Peers", .empty⟩] peers) peers
    (fun st => st.StorageMax)
  have h0 : repoStatHandler env r =
      Effect.setHeaders :: Effect.Call ⟨"", "Consensus", "Peers", .empty⟩ ::
       Effect.MultiCall peers "IPFSConnector" "RepoStat" ::
      (extra ++ [Effect.WriteHeader 200,
        Effect.Write (repoStatLoop (repoStatOutcomes env
          [Effect.setHeaders, Effect.Call ⟨"", "Consensus", "Peers", .empty⟩] peers)
          (⟨0, 0⟩, [])).1.Marshal]) := by
    simp only [repoStatHandler, hpeers, List.cons_append, List.nil_append, List.append_assoc]
    rw [hlog]
  refine ⟨?_, ?_, ?_, ?_, ?_⟩
  · rw [h0]
    simp only [responseStatus]
    rw [responseStatus_logs_append _ _ hextra]
    rfl
  · rw [h0]
    simp only [responseBody]
    rw [responseBody_logs_append _ _ hextra]
    simp only [responseBody, IPFSRepoStat.Marshal, htot.1, htot.2]
    unfold repoStatOutcomes
    rw [hsize, hmax]
    apply String.ext
    simp only [String.data_append, List.append_assoc]
    rfl
  · rw [h0]
    simp only [List.filter_cons, Effect.isRpc, if_true, Bool.false_eq_true, if_false]
    rw [filter_isRpc_logs_append _ _ hextra]
    rfl
  · unfold repoStatOutcomes
    rw [List.map_map]
    exact List.enum_map_snd peers
  · unfold repoStatOutcomes
    rw [List.map_map, ← List.enum_map_fst peers, List.map_map]
    rfl

theorem repoStatHandler_sums_successes_witness :
    responseBody (repoStatHandler mockEnv (plainRequest "/api/v0/repo/stat" [])) =
        "\x7b\"RepoSize\":15,\"StorageMax\":150\x7d"
      ∧ (mockEnv.MultiCallRepoStat
          [Effect.setHeaders, Effect.Call ⟨"", "Consensus", "Peers", .empty⟩]
          ["P1", "P2", "P3"] 1) = (⟨7, 7⟩, some ⟨"not authorized", true⟩) :=
  ⟨by
    rw [(repoStatHandler_sums_successes mockEnv (plainRequest "/api/v0/repo/stat" [])
      ["P1", "P2", "P3"] rfl).2.1]
    decide,
   rfl⟩

/-! ## Add -/

theorem filter_isRpc_ipfsErrorResponder (m : String) (code : Int) :
    (ipfsErrorResponder m code).filter Effect.isRpc = [] := by
  by_cases h : checkWriteHeaderCode (if code > 0 then code else 500) = true <;>
    simp [ipfsErrorResponder, h, Effect.isRpc]

theorem rpcCalls_append (a b : List Effect) :
    rpcCalls (a ++ b) = rpcCalls a ++ rpcCalls b := by
  induction a with
  | nil => rfl
  | cons e es ih => cases e <;> simp [rpcCalls, ih]

theorem rpcCalls_ipfsErrorResponder (m : String) (code : Int) :
    rpcCalls (ipfsErrorResponder m code) = [] := by
  by_cases h : checkWriteHeaderCode (if code > 0 then code else 500) = true <;>
    simp [ipfsErrorResponder, h, rpcCalls]

/-- C7: in `addHandler`, when the adder returns the root CID `root` without
error and `pin` is the text `false`, the effects are those before the adder,
the adder run, the pause, one `Cluster.Unpin` RPC with argument `root`, and
after it no further RPC: this is the only RPC of the request.  When `pin` is
anything else, and when the adder returns an error, no RPC is issued. -/
theorem addHandler_unpin_once (env : Env) (r : Request) :
    (∀ reader params0 pre params root,
        r.MultipartReader = .ok reader →
        env.AddParamsFromQuery r.Query = .ok params0 →
        pre = [Effect.setHeaders]
          ++ (if r.Query.Get "only-hash" = "true" then
                ipfsErrorResponder "only-hash is not supported when adding to cluster" (-1)
              else [])
          ++ [Effect.Log LogLevel.warning "Proxy/add does not support all IPFS params."] →
        params = (if r.Query.Get "trickle" = "true" then
            { params0 with Layout := "trickle" } else params0) →
        env.AddMultipartHTTPHandler pre params reader = .ok root →
        r.Query.Get "pin" = "false" →
        (∃ tail, addHandler env r =
            pre ++ [Effect.AddMultipartHTTPHandler params reader, Effect.Sleep 100,
              Effect.Call ⟨"", "Cluster", "Unpin", .cid root⟩] ++ tail
            ∧ tail.filter Effect.isRpc = [])
          ∧ (addHandler env r).filter Effect.isRpc =
              [Effect.Call ⟨"", "Cluster", "Unpin", .cid root⟩]
          ∧ rpcCalls (addHandler env r) = [⟨"", "Cluster", "Unpin", .cid root⟩])
      ∧ (r.Query.Get "pin" ≠ "false" → (addHandler env r).filter Effect.isRpc = [])
      ∧ (∀ reader params0 pre params err,
        r.MultipartReader = .ok reader →
        env.AddParamsFromQuery r.Query = .ok params0 →
        pre = [Effect.setHeaders]
          ++ (if r.Query.Get "only-hash" = "true" then
                ipfsErrorResponder "only-hash is not supported when adding to cluster" (-1)
              else [])
          ++ [Effect.Log LogLevel.warning "Proxy/add does not support all IPFS params."] →
        params = (if r.Query.Get "trickle" = "true" then
            { params0 with Layout := "trickle" } else params0) →
        env.AddMultipartHTTPHandler pre params reader = .error err →
        addHandler env r = pre ++ [Effect.AddMultipartHTTPHandler params reader]
          ∧ (addHandler env r).filter Effect.isRpc = []) := by
  have hpre : ∀ pre : List Effect,
      pre = [Effect.setHeaders]
          ++ (if r.Query.Get "only-hash" = "true" then
                ipfsErrorResponder "only-hash is not supported when adding to cluster" (-1)
              else [])
          ++ [Effect.Log LogLevel.warning "Proxy/add does not support all IPFS params."] →
      pre.filter Effect.isRpc = [] ∧ rpcCalls pre = [] := by
    intro pre h
    rw [h]
    by_cases ho : r.Query.Get "only-hash" = "true"
    · simp [ho, ipfsErrorResponder_eq, Effect.isRpc, rpcCalls]
    · simp [ho, Effect.isRpc, rpcCalls]
  refine ⟨?_, ?_, ?_⟩
  · intro reader params0 pre params root hmp hparams hp hpar hadd hpin
    have hadd2 := hadd
    rw [hp, hpar] at hadd2
    have h0 : ∃ tail, addHandler env r =
          pre ++ [Effect.AddMultipartHTTPHandler params reader, Effect.Sleep 100,
            Effect.Call ⟨"", "Cluster", "Unpin", .cid root⟩] ++ tail
          ∧ tail.filter Effect.isRpc = [] ∧ rpcCalls tail = [] := by
      by_cases ho : r.Query.Get "only-hash" = "true"
      · simp only [ho, if_true] at hadd2 hp
        cases hc : env.CallPin
          (pre ++ [Effect.AddMultipartHTTPHandler params reader, Effect.Sleep 100])
          ⟨"", "Cluster", "Unpin", .cid root⟩ with
        | error err =>
          refine ⟨[Effect.HeaderSet "X-Stream-Error" err.Error], ?_, rfl, rfl⟩
          rw [hp, hpar] at hc ⊢
          simp only [List.append_assoc, List.cons_append, List.nil_append] at hc hadd2
          simp [addHandler, hmp, hparams, ho, hadd2, hpin, hc]
        | ok pinObj =>
          refine ⟨[], ?_, rfl, rfl⟩
          rw [hp, hpar] at hc ⊢
          simp only [List.append_assoc, List.cons_append, List.nil_append] at hc hadd2
          simp [addHandler, hmp, hparams, ho, hadd2, hpin, hc]
      · simp only [ho, if_false] at hadd2 hp
        cases hc : env.CallPin
          (pre ++ [Effect.AddMultipartHTTPHandler params reader, Effect.Sleep 100])
          ⟨"", "Cluster", "Unpin", .cid root⟩ with
        | error err =>
          refine ⟨[Effect.HeaderSet "X-Stream-Error" err.Error], ?_, rfl, rfl⟩
          rw [hp, hpar] at hc ⊢
          simp only [List.append_assoc, List.cons_append, List.nil_append] at hc hadd2
          simp [addHandler, hmp, hparams, ho, hadd2, hpin, hc]
        | ok pinObj =>
          refine ⟨[], ?_, rfl, rfl⟩
          rw [hp, hpar] at hc ⊢
          simp only [List.append_assoc, List.cons_append, List.nil_append] at hc hadd2
          simp [addHandler, hmp, hparams, ho, hadd2, hpin, hc]
    obtain ⟨tail, ht, htf, htr⟩ := h0
    refine ⟨⟨tail, ht, htf⟩, ?_, ?_⟩
    · rw [ht, List.filter_append, List.filter_append, (hpre pre hp).1, htf]
      rfl
    · rw [ht, rpcCalls_append, rpcCalls_append, (hpre pre hp).2, htr]
      rfl
  · intro hpin
    cases hmp : r.MultipartReader with
    | error err => simp [addHandler, hmp, ipfsErrorResponder_eq, Effect.isRpc]
    | ok reader =>
      cases hparams : env.AddParamsFromQuery r.Query with
      | error err =>
        by_cases ho : r.Query.Get "only-hash" = "true" <;>
          simp [addHandler, hmp, hparams, ho, ipfsErrorResponder_eq, Effect.isRpc]
      | ok params0 =>
        by_cases ho : r.Query.Get "only-hash" = "true"
        · cases hadd : env.AddMultipartHTTPHandler
            [Effect.setHeaders, Effect.WriteHeader 500,
              Effect.Write ("\x7b\"Message\":"
                ++ jsonString "only-hash is not supported when adding to cluster" ++ "\x7d"),
              Effect.Log LogLevel.warning "Proxy/add does not support all IPFS params."]
            (if r.Query.Get "trickle" = "true" then
              { params0 with Layout := "trickle" } else params0) reader <;>
            simp [addHandler, hmp, hparams, ho, hpin, hadd, ipfsErrorResponder_eq,
              Effect.isRpc]
        · cases hadd : env.AddMultipartHTTPHandler
            [Effect.setHeaders,
              Effect.Log LogLevel.warning "Proxy/add does not support all IPFS params."]
            (if r.Query.Get "trickle" = "true" then
              { params0 with Layout := "trickle" } else params0) reader <;>
            simp [addHandler, hmp, hparams, ho, hpin, hadd, Effect.isRpc]
  · intro reader params0 pre params err hmp hparams hp hpar hadd
    have h0 : addHandler env r = pre ++ [Effect.AddMultipartHTTPHandler params reader] := by
      rw [hp, hpar] at hadd ⊢
      by_cases ho : r.Query.Get "only-hash" = "true"
      · simp only [ho, if_true, List.append_assoc, List.cons_append, List.nil_append] at hadd
        simp [addHandler, hmp, hparams, ho, hadd]
      · simp only [ho, if_false, List.append_assoc, List.cons_append, List.nil_append] at hadd
        simp [addHandler, hmp, hparams, ho, hadd]
    refine ⟨h0, ?_⟩
    rw [h0, List.filter_append, (hpre pre hp).1]
    rfl

theorem addHandler_unpin_once_witness :
    rpcCalls (addHandler mockEnv (uploadRequest "/api/v0/add?pin=false" [("pin", "false")])) =
        [⟨"", "Cluster", "Unpin", .cid ⟨"QmR"⟩⟩]
      ∧ (addHandler mockEnv (uploadRequest "/api/v0/add" [])).filter Effect.isRpc = [] :=
  ⟨((addHandler_unpin_once mockEnv
      (uploadRequest "/api/v0/add?pin=false" [("pin", "false")])).1
      [(some "hello", none)] ⟨"", []⟩
      [Effect.setHeaders,
        Effect.Log LogLevel.warning "Proxy/add does not support all IPFS params."]
      ⟨"", []⟩ ⟨"QmR"⟩ rfl rfl (by decide) (by decide) rfl (by decide)).2.2,
   (addHandler_unpin_once mockEnv (uploadRequest "/api/v0/add" [])).2.1 (by decide)⟩

/-- C8: on an add request with `only-hash=true`, a multipart body and options
that parse, `addHandler` writes the error response and then goes on: the
adder is run on the body of the request. -/
theorem addHandler_only_hash_runs_adder :
    addHandler mockEnv (uploadRequest "/api/v0/add?only-hash=true" [("only-hash", "true")]) =
      [Effect.setHeaders,
       Effect.WriteHeader 500,
       Effect.Write "\x7b\"Message\":\"only-hash is not supported when adding to cluster\"\x7d",
       Effect.Log LogLevel.warning "Proxy/add does not support all IPFS params.",
       Effect.AddMultipartHTTPHandler ⟨"", []⟩ [(some "hello", none)]] := by
  decide

/-! ## The spawn hook and the files handlers -/

/-- Without an error from `CreateFormFile`, `uidSpawn` issues its
`IPFSFilesWrite` call and returns nil, whatever the call returns. -/
theorem uidSpawn_returns_nil (env : Env) (log : List Effect) (uid : String)
    (h : env.CreateFormFile log "file" "time.txt" = none) :
    uidSpawn env log uid =
      (log ++ [Effect.Call ⟨"", "Cluster", "IPFSFilesWrite",
        .filesWrite ⟨env.FormDataContentType,
          env.FormFileBody "file" "time.txt" (toString env.Now),
          [uid, "time.txt", "0", "true", "true", "", "", "", ""]⟩⟩], none) := by
  simp only [uidSpawn, h]
  split
  · rename_i h1; rw [h1]
  · rfl

/-- C9: with an RPC client on which `IPFSFilesWrite` fails, `uidSpawn` issues
the call with parameters `[uid, "time.txt", "0", "true", "true", "", "", "",
""]`, the call returns an error, and `uidSpawn` returns nil; `filesCpHandler`
then goes on to its main call `IPFSFilesCp` and answers 200. -/
theorem uidSpawn_drops_rpc_error :
    uidSpawn spawnDownEnv [Effect.setHeaders] "U" =
        ([Effect.setHeaders,
          Effect.Call ⟨"", "Cluster", "IPFSFilesWrite",
            .filesWrite ⟨spawnDownEnv.FormDataContentType,
              spawnDownEnv.FormFileBody "file" "time.txt" "1572860000",
              ["U", "time.txt", "0", "true", "true", "", "", "", ""]⟩⟩], none)
      ∧ spawnDownEnv.CallEmpty [Effect.setHeaders]
          ⟨"", "Cluster", "IPFSFilesWrite",
            .filesWrite ⟨spawnDownEnv.FormDataContentType,
              spawnDownEnv.FormFileBody "file" "time.txt" "1572860000",
              ["U", "time.txt", "0", "true", "true", "", "", "", ""]⟩⟩
          = some ⟨"rpc down", false⟩
      ∧ (rpcCalls (filesCpHandler spawnDownEnv (plainRequest "/api/v0/files/cp"
          [("uid", "U"), ("source", "/a"), ("dest", "/b")]))).map (fun c => c.svcMethod) =
          ["IPFSFilesWrite", "IPFSFilesCp"]
      ∧ responseStatus (filesCpHandler spawnDownEnv (plainRequest "/api/v0/files/cp"
          [("uid", "U"), ("source", "/a"), ("dest", "/b")])) = some 200 := by
  refine ⟨?_, ?_, ?_, ?_⟩ <;> decide

/-- C10: each of the nine `files/*` handlers, on a request whose `uid` is
absent or empty, performs the headers and the error response of status 500
(message `error reading request: ` followed by the URL) and nothing else: no
RPC, neither the write of the spawn hook nor the call of the endpoint. -/
theorem files_handlers_require_uid (env : Env) (r : Request)
    (huid : r.Query.index "uid" = [] ∨ r.Query.Get "uid" = "") :
    ∀ handler ∈ [filesCpHandler, filesFlushHandler, filesLsHandler, filesMkdirHandler,
        filesMvHandler, filesReadHandler, filesRmHandler, filesStatHandler,
        filesWriteHandler],
      handler env r =
          [Effect.setHeaders, Effect.WriteHeader 500,
           Effect.Write ("\x7b\"Message\":"
             ++ jsonString ("error reading request: " ++ r.URL) ++ "\x7d")]
        ∧ responseStatus (handler env r) = some 500
        ∧ (handler env r).filter Effect.isRpc = []
        ∧ rpcCalls (handler env r) = [] := by
  have hget : r.Query.Get "uid" = "" := by
    rcases huid with h | h
    · simp [Values.Get, h]
    · exact h
  have key : ∀ handler : Env → Request → List Effect,
      handler env r =
          [Effect.setHeaders, Effect.WriteHeader 500,
           Effect.Write ("\x7b\"Message\":"
             ++ jsonString ("error reading request: " ++ r.URL) ++ "\x7d")] →
      handler env r =
          [Effect.setHeaders, Effect.WriteHeader 500,
           Effect.Write ("\x7b\"Message\":"
             ++ jsonString ("error reading request: " ++ r.URL) ++ "\x7d")]
        ∧ responseStatus (handler env r) = some 500
        ∧ (handler env r).filter Effect.isRpc = []
        ∧ rpcCalls (handler env r) = [] := by
    intro handler h
    refine ⟨h, ?_, ?_, ?_⟩ <;> rw [h] <;> rfl
  intro handler hmem
  simp only [List.mem_cons, List.mem_singleton, List.not_mem_nil, or_false] at hmem
  rcases hmem with h | h | h | h | h | h | h | h | h <;> subst h <;> apply key
  · simp [filesCpHandler, hget, ipfsErrorResponder_eq]
  · simp [filesFlushHandler, hget, ipfsErrorResponder_eq]
  · simp [filesLsHandler, hget, ipfsErrorResponder_eq]
  · simp [filesMkdirHandler, hget, ipfsErrorResponder_eq]
  · simp [filesMvHandler, hget, ipfsErrorResponder_eq]
  · simp [filesReadHandler, hget, ipfsErrorResponder_eq]
  · simp [filesRmHandler, hget, ipfsErrorResponder_eq]
  · simp [filesStatHandler, hget, ipfsErrorResponder_eq]
  · simp [filesWriteHandler, hget, ipfsErrorResponder_eq]

theorem files_handlers_require_uid_witness :
    responseBody (filesWriteHandler downEnv
        (uploadRequest "/api/v0/files/write?path=/a" [("path", "/a")])) =
        "\x7b\"Message\":\"error reading request: /api/v0/files/write?path=/a\"\x7d"
      ∧ rpcCalls (filesRmHandler mockEnv
        (plainRequest "/api/v0/files/rm?uid=&path=/a" [("uid", ""), ("path", "/a")])) = [] :=
  ⟨by
    rw [(files_handlers_require_uid downEnv
      (uploadRequest "/api/v0/files/write?path=/a" [("path", "/a")]) (Or.inl (by decide))
      filesWriteHandler (by simp)).1]
    decide,
   (files_handlers_require_uid mockEnv
      (plainRequest "/api/v0/files/rm?uid=&path=/a" [("uid", ""), ("path", "/a")])
      (Or.inr (by decide)) filesRmHandler (by simp)).2.2.2⟩

/-- C11, as stated, fails: a request with a uid and no `path` has a `path`
query value, the empty text, that differs from `/`, and yet the spawn hook is
not run: an empty path is first replaced by `/`. -/
theorem filesMkdirHandler_spawn_iff_not_root_fails :
    ¬ (∀ (env : Env) (r : Request), r.Query.Get "uid" ≠ "" →
        ((∃ c ∈ rpcCalls (filesMkdirHandler env r), c.svcMethod = "IPFSFilesWrite")
          ↔ r.Query.Get "path" ≠ "/")) := by
  intro h
  have h1 := h mockEnv (plainRequest "/api/v0/files/mkdir?uid=U" [("uid", "U")]) (by decide)
  have h2 : rpcCalls (filesMkdirHandler mockEnv
      (plainRequest "/api/v0/files/mkdir?uid=U" [("uid", "U")])) =
      [⟨"", "Cluster", "IPFSFilesMkdir", .strs ["U", "/", "false"]⟩] := by decide
  rw [h2] at h1
  have h3 := h1.mpr (by decide)
  simp at h3

/-- C11, amended: in `filesMkdirHandler`, for a request with a non-empty uid
(and a multipart writer that opens its form file), the RPCs are the write of
`time.txt` by the spawn hook followed by `IPFSFilesMkdir` when the `path` value
is neither empty nor `/`, and `IPFSFilesMkdir` alone when it is empty or `/`;
the parameters of `IPFSFilesMkdir` are the uid, the path (`/` for an empty
one) and `parents` (`false` for an empty one).  With path `/` and no
`parents` value the only RPC is `IPFSFilesMkdir` with `[uid, "/", "false"]`. -/
theorem filesMkdirHandler_spawn_iff_path_given (env : Env) (r : Request)
    (huid : r.Query.Get "uid" ≠ "")
    (hform : env.CreateFormFile [Effect.setHeaders] "file" "time.txt" = none) :
    rpcCalls (filesMkdirHandler env r) =
        (if r.Query.Get "path" ≠ "" ∧ r.Query.Get "path" ≠ "/" then
          [⟨"", "Cluster", "IPFSFilesWrite",
            .filesWrite ⟨env.FormDataContentType,
              env.FormFileBody "file" "time.txt" (toString env.Now),
              [r.Query.Get "uid", "time.txt", "0", "true", "true", "", "", "", ""]⟩⟩]
         else [])
        ++ [⟨"", "Cluster", "IPFSFilesMkdir",
            .strs [r.Query.Get "uid",
              if r.Query.Get "path" = "" then "/" else r.Query.Get "path",
              if r.Query.Get "parents" = "" then "false" else r.Query.Get "parents"]⟩]
      ∧ ((∃ c ∈ rpcCalls (filesMkdirHandler env r), c.svcMethod = "IPFSFilesWrite")
          ↔ (r.Query.Get "path" ≠ "" ∧ r.Query.Get "path" ≠ "/"))
      ∧ (r.Query.Get "path" = "/" → r.Query.Get "parents" = "" →
          (filesMkdirHandler env r).filter Effect.isRpc =
            [Effect.Call ⟨"", "Cluster", "IPFSFilesMkdir",
              .strs [r.Query.Get "uid", "/", "false"]⟩]) := by
  have hcalls : rpcCalls (filesMkdirHandler env r) =
        (if r.Query.Get "path" ≠ "" ∧ r.Query.Get "path" ≠ "/" then
          [⟨"", "Cluster", "IPFSFilesWrite",
            .filesWrite ⟨env.FormDataContentType,
              env.FormFileBody "file" "time.txt" (toString env.Now),
              [r.Query.Get "uid", "time.txt", "0", "true", "true", "", "", "", ""]⟩⟩]
         else [])
        ++ [⟨"", "Cluster", "IPFSFilesMkdir",
            .strs [r.Query.Get "uid",
              if r.Query.Get "path" = "" then "/" else r.Query.Get "path",
              if r.Query.Get "parents" = "" then "false" else r.Query.Get "parents"]⟩] := by
    by_cases hp0 : r.Query.Get "path" = ""
    · cases hc : env.CallEmpty [Effect.setHeaders]
          ⟨"", "Cluster", "IPFSFilesMkdir", .strs [r.Query.Get "uid", "/",
            if r.Query.Get "parents" = "" then "false" else r.Query.Get "parents"]⟩ <;>
        simp [filesMkdirHandler, huid, hp0, hc, rpcCalls, ipfsErrorResponder_eq]
    · by_cases hp1 : r.Query.Get "path" = "/"
      · cases hc : env.CallEmpty [Effect.setHeaders]
            ⟨"", "Cluster", "IPFSFilesMkdir", .strs [r.Query.Get "uid", "/",
              if r.Query.Get "parents" = "" then "false" else r.Query.Get "parents"]⟩ <;>
          simp [filesMkdirHandler, huid, hp1, hc, rpcCalls, ipfsErrorResponder_eq]
      · cases hc : env.CallEmpty
            [Effect.setHeaders, Effect.Call ⟨"", "Cluster", "IPFSFilesWrite",
              .filesWrite ⟨env.FormDataContentType,
                env.FormFileBody "file" "time.txt" (toString env.Now),
                [r.Query.Get "uid", "time.txt", "0", "true", "true", "", "", "", ""]⟩⟩]
            ⟨"", "Cluster", "IPFSFilesMkdir", .strs [r.Query.Get "uid", r.Query.Get "path",
              if r.Query.Get "parents" = "" then "false" else r.Query.Get "parents"]⟩ <;>
          simp [filesMkdirHandler, huid, hp0, hp1, hc, rpcCalls, ipfsErrorResponder_eq,
            uidSpawn_returns_nil env _ _ hform]
  refine ⟨hcalls, ?_, ?_⟩
  · rw [hcalls]
    by_cases hp : r.Query.Get "path" ≠ "" ∧ r.Query.Get "path" ≠ "/"
    · simp [hp]
    · simp [hp]
  · intro hp hpar
    cases hc : env.CallEmpty [Effect.setHeaders]
        ⟨"", "Cluster", "IPFSFilesMkdir", .strs [r.Query.Get "uid", "/", "false"]⟩ <;>
      simp [filesMkdirHandler, huid, hp, hpar, hc, Effect.isRpc, ipfsErrorResponder_eq]

theorem filesMkdirHandler_spawn_iff_path_given_witness :
    (rpcCalls (filesMkdirHandler mockEnv (plainRequest "/api/v0/files/mkdir?uid=U&path=/"
        [("uid", "U"), ("path", "/")]))).map (fun c => c.svcMethod) = ["IPFSFilesMkdir"]
      ∧ (rpcCalls (filesMkdirHandler mockEnv (plainRequest "/api/v0/files/mkdir?uid=U&path=/a"
        [("uid", "U"), ("path", "/a")]))).map (fun c => c.svcMethod)
          = ["IPFSFilesWrite", "IPFSFilesMkdir"] :=
  ⟨by
    rw [(filesMkdirHandler_spawn_iff_path_given mockEnv
      (plainRequest "/api/v0/files/mkdir?uid=U&path=/" [("uid", "U"), ("path", "/")])
      (by decide) rfl).1]
    decide,
   by
    rw [(filesMkdirHandler_spawn_iff_path_given mockEnv
      (plainRequest "/api/v0/files/mkdir?uid=U&path=/a" [("uid", "U"), ("path", "/a")])
      (by decide) rfl).1]
    decide⟩

/-- C12: in `filesRmHandler`, for a request with a non-empty uid and `path`
equal to `/`, whatever the other query values and whatever the RPC client
answers, the status is 500 and no `IPFSFilesRm` call is issued; the effects
are the headers, the write of the spawn hook and the error response with the
message `can not remove path: /` (the multipart writer of the hook opening its
form file, as it does on a buffer). -/
theorem filesRmHandler_refuses_root (env : Env) (r : Request)
    (huid : r.Query.Get "uid" ≠ "") (hpath : r.Query.Get "path" = "/") :
    responseStatus (filesRmHandler env r) = some 500
      ∧ (∀ c ∈ rpcCalls (filesRmHandler env r), c.svcMethod ≠ "IPFSFilesRm")
      ∧ (env.CreateFormFile [Effect.setHeaders] "file" "time.txt" = none →
          filesRmHandler env r =
            [Effect.setHeaders,
             Effect.Call ⟨"", "Cluster", "IPFSFilesWrite",
               .filesWrite ⟨env.FormDataContentType,
                 env.FormFileBody "file" "time.txt" (toString env.Now),
                 [r.Query.Get "uid", "time.txt", "0", "true", "true", "", "", "", ""]⟩⟩,
             Effect.WriteHeader 500,
             Effect.Write "\x7b\"Message\":\"can not remove path: /\"\x7d"]) := by
  have hmsg : jsonString ("can not remove path: " ++ "/") = "\"can not remove path: /\"" := by
    decide
  cases hform : env.CreateFormFile [Effect.setHeaders] "file" "time.txt" with
  | some err =>
    have h0 : filesRmHandler env r =
        [Effect.setHeaders, Effect.WriteHeader 500,
         Effect.Write ("\x7b\"Message\":" ++ jsonString err.Error ++ "\x7d")] := by
      simp [filesRmHandler, huid, uidSpawn, hform, ipfsErrorResponder_eq]
    refine ⟨by rw [h0]; rfl, ?_, ?_⟩
    · rw [h0]; simp [rpcCalls]
    · intro h; exact Option.noConfusion h
  | none =>
    have h0 : filesRmHandler env r =
        [Effect.setHeaders,
         Effect.Call ⟨"", "Cluster", "IPFSFilesWrite",
           .filesWrite ⟨env.FormDataContentType,
             env.FormFileBody "file" "time.txt" (toString env.Now),
             [r.Query.Get "uid", "time.txt", "0", "true", "true", "", "", "", ""]⟩⟩,
         Effect.WriteHeader 500,
         Effect.Write "\x7b\"Message\":\"can not remove path: /\"\x7d"] := by
      simp only [filesRmHandler, huid, hpath, uidSpawn_returns_nil env _ _ hform,
        ipfsErrorResponder_eq, hmsg]
      simp
    refine ⟨by rw [h0]; rfl, ?_, fun _ => h0⟩
    rw [h0]
    intro c hc
    simp only [rpcCalls, List.mem_singleton] at hc
    rw [hc]
    show "IPFSFilesWrite" ≠ "IPFSFilesRm"
    decide

theorem filesRmHandler_refuses_root_witness :
    responseBody (filesRmHandler mockEnv
        (plainRequest "/api/v0/files/rm?uid=U&path=/&recursive=true"
          [("uid", "U"), ("path", "/"), ("recursive", "true")])) =
      "\x7b\"Message\":\"can not remove path: /\"\x7d" := by
  rw [(filesRmHandler_refuses_root mockEnv
    (plainRequest "/api/v0/files/rm?uid=U&path=/&recursive=true"
      [("uid", "U"), ("path", "/"), ("recursive", "true")])
    (by decide) (by decide)).2.2 rfl]
  decide

/-! ## The route table -/

/-- Once the method matcher has refused, the loop over the matchers does not
end without an error. -/
theorem matchersLoop_of_some (method path : String) (ms : List Matcher) (e : MatchErr) :
    matchersLoop method path ms (some e) ≠ some none := by
  induction ms generalizing e with
  | nil => simp [matchersLoop]
  | cons m rest ih =>
    unfold matchersLoop
    split
    · exact ih e
    · cases m with
      | Methods ms => exact ih _
      | PathPrefix tpl => simp
      | Path tpl => simp

/-- A route whose first matcher lists methods does not match a request with
another method, and leaves the handler and the variables of the match as they
were. -/
theorem Route.Match_wrong_method (r : Route) (methods : List String) (rest : List Matcher)
    (method path : String) (m : RouteMatch)
    (hr : r.matchers = Matcher.Methods methods :: rest)
    (hm : method ∉ methods) :
    ∃ m1, r.Match method path m = (false, m1) ∧ m1.Handler = m.Handler
      ∧ m1.Vars = m.Vars := by
  have h1 : matchersLoop method path r.matchers none =
      matchersLoop method path rest (some MatchErr.ErrMethodMismatch) := by
    rw [hr]
    simp [matchersLoop, Matcher.Match, hm]
  unfold Route.Match
  rw [h1]
  cases h2 : matchersLoop method path rest (some MatchErr.ErrMethodMismatch) with
  | none =>
    refine ⟨(refused m).2, rfl, ?_, ?_⟩ <;> unfold refused <;> split <;> rfl
  | some matchErr =>
    cases matchErr with
    | none => exact absurd h2 (matchersLoop_of_some _ _ _ _)
    | some e => exact ⟨_, rfl, rfl, rfl⟩

/-- No route of the subrouter matches a request whose method is not one of
the three, and the handler and the variables of the match stay as they were. -/
theorem routesLoop_wrong_method (method path : String) (routes : List Route)
    (hroutes : ∀ r ∈ routes, ∃ tpl h name, r = hijackPath tpl h name)
    (hm : method ∉ ["POST", "GET", "PUT"]) (m : RouteMatch) :
    ∃ m1, routesLoop method path routes m = (false, m1) ∧ m1.Handler = m.Handler
      ∧ m1.Vars = m.Vars := by
  induction routes generalizing m with
  | nil => exact ⟨m, rfl, rfl, rfl⟩
  | cons r rest ih =>
    obtain ⟨tpl, h, name, hr⟩ := hroutes r (List.mem_cons_self _ _)
    obtain ⟨m1, h1, h2, h3⟩ := Route.Match_wrong_method r ["POST", "GET", "PUT"]
      [Matcher.PathPrefix "/api/v0", Matcher.Path ("/api/v0" ++ tpl)] method path m
      (by rw [hr]; rfl) hm
    obtain ⟨m2, h4, h5, h6⟩ := ih (fun x hx => hroutes x (List.mem_cons_of_mem _ hx)) m1
    refine ⟨m2, ?_, h5.trans h2, h6.trans h3⟩
    simp only [routesLoop, h1, h4]

/-- With one of the three methods, the loop over the routes of the subrouter,
started on an empty match, either finds no route and leaves the match empty,
or stops at a route whose template the path matches, with the handler and the
variables of that route. -/
theorem routesLoop_right_method (method path : String) (routes : List Route)
    (hroutes : ∀ r ∈ routes, ∃ tpl h name, r = hijackPath tpl h name)
    (hm : method ∈ ["POST", "GET", "PUT"]) :
    routesLoop method path routes {} = (false, {})
      ∨ ∃ tpl h name vars, hijackPath tpl h name ∈ routes
          ∧ matchTemplate ("/api/v0" ++ tpl) path = some vars
          ∧ routesLoop method path routes {} =
              (true, { Route := some name, Handler := some h, Vars := some vars }) := by
  have hm2 : method = "POST" ∨ method = "GET" ∨ method = "PUT" := by simpa using hm
  induction routes with
  | nil => exact Or.inl rfl
  | cons r rest ih =>
    obtain ⟨tpl, h, name, hr⟩ := hroutes r (List.mem_cons_self _ _)
    have ih2 := ih (fun x hx => hroutes x (List.mem_cons_of_mem _ hx))
    by_cases hp0 : beginsWith "/api/v0".toList path.toList = true
    · have hp := hp0
      simp only [String.toList] at hp
      cases ht : matchTemplate ("/api/v0" ++ tpl) path with
      | none =>
        have h1 : r.Match method path {} = (false, {}) := by
          rw [hr]
          simp [Route.Match, hijackPath, hijackMatchers, matchersLoop, Matcher.Match, hm2, hp,
            ht, refused]
        simp only [routesLoop, h1]
        rcases ih2 with h2 | ⟨tpl2, h2, name2, vars2, hmem, hmt, hl⟩
        · exact Or.inl h2
        · exact Or.inr ⟨tpl2, h2, name2, vars2, List.mem_cons_of_mem _ hmem, hmt, hl⟩
      | some vars =>
        right
        refine ⟨tpl, h, name, vars, by rw [hr]; exact List.mem_cons_self _ _, ht, ?_⟩
        have h1 : r.Match method path {} =
            (true, { Route := some name, Handler := some h, Vars := some vars }) := by
          rw [hr]
          simp [Route.Match, hijackPath, hijackMatchers, matchersLoop, Matcher.Match, hm2, hp,
            ht, matched, Matcher.vars]
        simp only [routesLoop, h1]
    · have hp := hp0
      simp only [String.toList] at hp
      have h1 : r.Match method path {} = (false, {}) := by
        rw [hr]
        simp [Route.Match, hijackPath, hijackMatchers, matchersLoop, Matcher.Match, hm2, hp,
          refused]
      simp only [routesLoop, h1]
      rcases ih2 with h2 | ⟨tpl2, h2, name2, vars2, hmem, hmt, hl⟩
      · exact Or.inl h2
      · exact Or.inr ⟨tpl2, h2, name2, vars2, List.mem_cons_of_mem _ hmem, hmt, hl⟩

/-- Every route of the subrouter is a `Path` route under the matchers of the
subrouter. -/
theorem hijackSubrouter_routes :
    ∀ r ∈ hijackSubrouter, ∃ tpl h name, r = hijackPath tpl h name := by
  intro r hr
  simp only [hijackSubrouter, List.mem_cons, List.mem_singleton, List.not_mem_nil,
    or_false] at hr
  rcases hr with h | h | h | h | h | h | h | h | h | h | h | h | h | h | h | h | h | h | h
    | h | h | h | h | h | h <;> exact ⟨_, _, _, h⟩

theorem beginsWith_slash (rest : String) :
    beginsWith "/".toList ("/" ++ rest).toList = true := by
  have h : ("/" ++ rest).toList = Char.ofNat 47 :: rest.toList := by
    simp only [String.toList, String.data_append]
    rfl
  rw [h]
  rfl

/-- The end of a router without a match keeps the handler and the variables
of the match. -/
theorem unmatched_spec (m : RouteMatch) :
    (unmatched m).1 = false ∧ (unmatched m).2.Handler = m.Handler
      ∧ (unmatched m).2.Vars = m.Vars := by
  unfold unmatched
  split <;> exact ⟨rfl, rfl, rfl⟩

/-- A refusal keeps the handler and the variables of the match. -/
theorem refused_spec (m : RouteMatch) :
    (refused m).1 = false ∧ (refused m).2.Handler = m.Handler
      ∧ (refused m).2.Vars = m.Vars := by
  unfold refused
  refine ⟨rfl, ?_, ?_⟩ <;> split <;> rfl

/-- A route with a handler that matches a request, on a match that has no
handler yet: the match succeeds with the handler of the route, and the
variables of the route are added to those of the match. -/
theorem matched_handler (h : Handler) (name : String) (vars : Vars) (m : RouteMatch)
    (h1 : m.Handler = none) :
    (matched none (some h) name vars m).1 = true
      ∧ (matched none (some h) name vars m).2.Handler = some h
      ∧ (matched none (some h) name vars m).2.Vars = some (m.Vars.getD [] ++ vars) := by
  obtain ⟨route, handler, vars0, err⟩ := m
  simp only at h1
  subst h1
  by_cases he : err = some MatchErr.ErrMethodMismatch <;>
    by_cases hr : route = none <;> simp [matched, he, hr]

/-- The matching of the router that `New` builds, on a path that begins with
a slash.  When the method is not POST, GET or PUT, the request goes to the
reverse proxy.  When the method is one of the three, the request goes either
to the reverse proxy or to the handler of a route of the hijack subrouter
whose template, under `/api/v0`, the path matches, with the variables of that
match: a path that matches no registered template goes to the reverse
proxy. -/
theorem dispatch_of_rooted (method rest : String) :
    (method ∉ ["POST", "GET", "PUT"] →
        dispatch router method ("/" ++ rest) = Served.handler Handler.reverseProxy [])
      ∧ (method ∈ ["POST", "GET", "PUT"] →
        dispatch router method ("/" ++ rest) = Served.handler Handler.reverseProxy []
          ∨ ∃ tpl h name vars, hijackPath tpl h name ∈ hijackSubrouter
              ∧ matchTemplate ("/api/v0" ++ tpl) ("/" ++ rest) = some vars
              ∧ dispatch router method ("/" ++ rest) = Served.handler h vars)
      ∧ (method ∈ ["POST", "GET", "PUT"] →
        (∀ tpl h name, hijackPath tpl h name ∈ hijackSubrouter →
          matchTemplate ("/api/v0" ++ tpl) ("/" ++ rest) = none) →
        dispatch router method ("/" ++ rest) = Served.handler Handler.reverseProxy []) := by
  have hslash := beginsWith_slash rest
  simp only [String.toList] at hslash
  -- the catch-all route, on a match without handler and variables
  have hcatch : ∀ m : RouteMatch, m.Handler = none → m.Vars = none →
      ∃ m1, MainRoute.Match ⟨[Matcher.PathPrefix "/"], none, some Handler.reverseProxy, ""⟩
          method ("/" ++ rest) m = (true, m1)
        ∧ m1.Handler = some Handler.reverseProxy ∧ m1.Vars = some [] := by
    intro m h1 h2
    have h0 : MainRoute.Match ⟨[Matcher.PathPrefix "/"], none, some Handler.reverseProxy, ""⟩
        method ("/" ++ rest) m = matched none (some Handler.reverseProxy) "" [] m := by
      simp only [MainRoute.Match, matchersLoop, Matcher.Match, String.toList, hslash, if_true]
    rw [h0]
    obtain ⟨h3, h4, h5⟩ := matched_handler Handler.reverseProxy "" [] m h1
    refine ⟨(matched none (some Handler.reverseProxy) "" [] m).2, Prod.ext h3 rfl, h4, ?_⟩
    rw [h5, h2]
    rfl
  -- the reverse proxy, once the first route has refused
  have hfall : ∀ m : RouteMatch, m.Handler = none → m.Vars = none →
      MainRoute.Match ⟨hijackMatchers, some hijackSubrouter, none, ""⟩ method ("/" ++ rest) {}
        = (false, m) →
      dispatch router method ("/" ++ rest) = Served.handler Handler.reverseProxy [] := by
    intro m h1 h2 h3
    obtain ⟨m1, h4, h5, h6⟩ := hcatch m h1 h2
    simp [dispatch, router, mainRoutesLoop, h3, h4, h5, h6]
  have hwrong : method ∉ ["POST", "GET", "PUT"] →
      dispatch router method ("/" ++ rest) = Served.handler Handler.reverseProxy [] := by
    intro hm
    have hm2 : ¬ (method = "POST" ∨ method = "GET" ∨ method = "PUT") := by simpa using hm
    by_cases hp : beginsWith "/api/v0".data ("/" ++ rest).data = true
    · obtain ⟨m1, h1, h2, h3⟩ := routesLoop_wrong_method method ("/" ++ rest) hijackSubrouter
        hijackSubrouter_routes hm {}
      have hl : matchersLoop method ("/" ++ rest) hijackMatchers none =
          some (some MatchErr.ErrMethodMismatch) := by
        simp only [hijackMatchers, matchersLoop, Matcher.Match, String.toList, hp]
        simp [hm2]
      have h4 : MainRoute.Match ⟨hijackMatchers, some hijackSubrouter, none, ""⟩ method
          ("/" ++ rest) {} = (false, (refused (unmatched m1).2).2) := by
        simp only [MainRoute.Match, hl, subrouterMatch, h1]
        rw [show unmatched m1 = (false, (unmatched m1).2) from
          Prod.ext (unmatched_spec m1).1 rfl]
        exact Prod.ext (refused_spec _).1 rfl
      refine hfall _ ?_ ?_ h4
      · rw [(refused_spec _).2.1, (unmatched_spec _).2.1, h2]
      · rw [(refused_spec _).2.2, (unmatched_spec _).2.2, h3]
    · apply hfall {} rfl rfl
      simp only [MainRoute.Match, hijackMatchers, matchersLoop, Matcher.Match, String.toList, hp]
      simp [hm2, refused]
  have hright : method ∈ ["POST", "GET", "PUT"] →
      dispatch router method ("/" ++ rest) = Served.handler Handler.reverseProxy []
        ∨ ∃ tpl h name vars, hijackPath tpl h name ∈ hijackSubrouter
            ∧ matchTemplate ("/api/v0" ++ tpl) ("/" ++ rest) = some vars
            ∧ dispatch router method ("/" ++ rest) = Served.handler h vars := by
    intro hm
    have hm2 : method = "POST" ∨ method = "GET" ∨ method = "PUT" := by simpa using hm
    by_cases hp : beginsWith "/api/v0".data ("/" ++ rest).data = true
    · rcases routesLoop_right_method method ("/" ++ rest) hijackSubrouter
        hijackSubrouter_routes hm with h1 | ⟨tpl, h, name, vars, hmem, hmt, h1⟩
      · left
        apply hfall {} rfl rfl
        simp only [MainRoute.Match, hijackMatchers, matchersLoop, Matcher.Match, String.toList,
          hp, if_true, subrouterMatch, h1, unmatched, refused]
        simp [hm2]
      · right
        refine ⟨tpl, h, name, vars, hmem, hmt, ?_⟩
        have h2 : MainRoute.Match ⟨hijackMatchers, some hijackSubrouter, none, ""⟩ method
            ("/" ++ rest) {} =
            (true, { Route := some name, Handler := some h, Vars := some vars }) := by
          simp only [MainRoute.Match, hijackMatchers, matchersLoop, Matcher.Match,
            String.toList, hp, if_true, subrouterMatch, h1, matched]
          simp [hm2]
        simp [dispatch, router, mainRoutesLoop, h2]
    · left
      apply hfall {} rfl rfl
      simp only [MainRoute.Match, hijackMatchers, matchersLoop, Matcher.Match, String.toList, hp]
      simp [hm2, refused]
  refine ⟨hwrong, hright, ?_⟩
  intro hm hnone
  rcases hright hm with h | ⟨tpl, h, name, vars, hmem, hmt, _⟩
  · exact h
  · rw [hnone tpl h name hmem] at hmt
    exact Option.noConfusion hmt

/-- The elements of a path, joined after slashes, begin with a slash. -/
theorem pathClean_rooted (p : List Char) : ∃ t, pathClean p = Char.ofNat 47 :: t := by
  unfold pathClean
  split
  · exact ⟨[], rfl⟩
  · exact ⟨_, rfl⟩

/-- The canonical form of a path begins with a slash. -/
theorem cleanPath_rooted (p : String) : ∃ rest : String, cleanPath p = "/" ++ rest := by
  have key : ∀ t : List Char, String.mk (Char.ofNat 47 :: t) = "/" ++ String.mk t := by
    intro t
    apply String.ext
    simp only [String.data_append]
    rfl
  unfold cleanPath
  by_cases hp : p = ""
  · exact ⟨"", by simp only [hp, if_true]; rfl⟩
  · simp only [hp, if_false]
    generalize (if p.toList.head? = some (Char.ofNat 47) then p.toList
      else Char.ofNat 47 :: p.toList) = q
    obtain ⟨t, ht⟩ := pathClean_rooted q
    rw [ht]
    by_cases hc : q.getLast? = some (Char.ofNat 47) ∧ Char.ofNat 47 :: t ≠ [Char.ofNat 47]
    · refine ⟨String.mk (t ++ [Char.ofNat 47]), ?_⟩
      rw [if_pos hc, List.cons_append]
      exact key _
    · refine ⟨String.mk t, ?_⟩
      rw [if_neg hc]
      exact key _

/-- C13, as stated, fails: the request `OPTIONS //api/v0/pin/add`, whose
method is none of the three, does not reach the reverse proxy: its path is not
in canonical form and the router answers it by a redirect. -/
theorem router_every_path_fails :
    ¬ (∀ (method path : String), method ∉ ["POST", "GET", "PUT"] →
        ∃ vars, ServeHTTP router method path = Served.handler Handler.reverseProxy vars) := by
  intro h
  obtain ⟨vars, hv⟩ := h "OPTIONS" "//api/v0/pin/add" (by decide)
  have h1 : ServeHTTP router "OPTIONS" "//api/v0/pin/add" =
      Served.redirect "/api/v0/pin/add" := by decide
  rw [h1] at hv
  exact Served.noConfusion hv

/-- C13, amended: the router that `New` builds.  A request whose path is not
in canonical form is answered by the router itself, with a redirect to the
canonical form, whatever its method, and reaches no handler.  For a request
whose path is in canonical form: when the method is not POST, GET or PUT, the
request goes to the reverse proxy, whatever the path; when the method is one
of the three, the request goes either to the reverse proxy or to the handler
of a route of the hijack subrouter whose template, under `/api/v0`, the path
matches, with the variables of that match, and a path that matches no
registered template goes to the reverse proxy. -/
theorem router_dispatch (method path : String) :
    (cleanPath path ≠ path →
        ServeHTTP router method path = Served.redirect (cleanPath path))
      ∧ (cleanPath path = path →
        (method ∉ ["POST", "GET", "PUT"] →
          ServeHTTP router method path = Served.handler Handler.reverseProxy [])
        ∧ (method ∈ ["POST", "GET", "PUT"] →
          ServeHTTP router method path = Served.handler Handler.reverseProxy []
            ∨ ∃ tpl h name vars, hijackPath tpl h name ∈ hijackSubrouter
                ∧ matchTemplate ("/api/v0" ++ tpl) path = some vars
                ∧ ServeHTTP router method path = Served.handler h vars)
        ∧ (method ∈ ["POST", "GET", "PUT"] →
          (∀ tpl h name, hijackPath tpl h name ∈ hijackSubrouter →
            matchTemplate ("/api/v0" ++ tpl) path = none) →
          ServeHTTP router method path = Served.handler Handler.reverseProxy [])) := by
  constructor
  · intro hne
    simp only [ServeHTTP, hne, ne_eq, not_false_eq_true, if_true]
  · intro hclean
    have hserve : ServeHTTP router method path = dispatch router method path := by
      simp only [ServeHTTP, hclean, ne_eq, not_true_eq_false, if_false]
    obtain ⟨rest, hrest⟩ := cleanPath_rooted path
    rw [hclean] at hrest
    rw [hserve, hrest]
    exact dispatch_of_rooted method rest

theorem router_dispatch_witness :
    ServeHTTP router "OPTIONS" "/api/v0/pin/add" = Served.handler Handler.reverseProxy []
      ∧ ServeHTTP router "HEAD" "/api/v0/files/write" = Served.handler Handler.reverseProxy []
      ∧ ServeHTTP router "GET" "/api/v0/version" = Served.handler Handler.reverseProxy []
      ∧ ServeHTTP router "POST" "/api/v0/pin/add/.." = Served.redirect "/api/v0/pin"
      ∧ ServeHTTP router "POST" "/api/v0/pin/ls/QmA" =
          Served.handler (Handler.slashHandler Handler.pinLsHandler) [("arg", "QmA")]
      ∧ ServeHTTP router "PUT" "/api/v0/files/mkdir" =
          Served.handler Handler.filesMkdirHandler [] :=
  ⟨((router_dispatch "OPTIONS" "/api/v0/pin/add").2 (by decide)).1 (by decide),
   ((router_dispatch "HEAD" "/api/v0/files/write").2 (by decide)).1 (by decide),
   by
    rcases ((router_dispatch "GET" "/api/v0/version").2 (by decide)).2.1 (by decide)
      with h | _
    · exact h
    · decide,
   (router_dispatch "POST" "/api/v0/pin/add/..").1 (by decide),
   by decide, by decide⟩

/-! ## The shim for a trailing argument -/

theorem Values.index_Set_self (q : Values) (key value : String) :
    (q.Set key value).index key = [value] := by
  simp [Values.Set, Values.index, List.filter_append, List.filter_filter]

theorem Values.index_Set_other (q : Values) (key value other : String) (h : other ≠ key) :
    (q.Set key value).index other = q.index other := by
  have h2 : ∀ kv : String × String, (!(kv.1 == key) && (kv.1 == other)) = (kv.1 == other) := by
    intro kv
    by_cases h3 : kv.1 = other
    · have h4 : kv.1 ≠ key := fun h5 => h (h3 ▸ h5)
      simp [h3, h]
    · simp [h3]
  have h3 : (key == other) = false := by
    simp only [beq_eq_false_iff_ne, ne_eq]
    exact fun h4 => h h4.symm
  simp only [Values.Set, Values.index, List.filter_append, List.filter_filter, List.filter_cons,
    List.filter_nil, h3, Bool.false_eq_true, if_false, List.append_nil]
  congr 1
  apply List.filter_congr
  intro kv _
  rw [Bool.and_comm]
  exact h2 kv

/-- C14: the handler that `slashHandler` returns logs its warning and then
runs the wrapped handler once, on the request whose query has `arg` set to the
value of the path variable `arg`: for the wrapped handler `arg` has that one
value, whatever values it had in the query, every other key has the values it
had, and the body and the variables of the request are unchanged. -/
theorem slashHandler_sets_arg (origHandler : Env → Request → List Effect) (env : Env)
    (r : Request) :
    slashHandler origHandler env r =
        Effect.Log LogLevel.error
            ("You are using an undocumented form of the IPFS API. "
              ++ "Consider passing your command arguments"
              ++ "with the '?arg=' query parameter")
          :: origHandler env
            { r with
              Query := r.Query.Set "arg" ((r.Vars.lookup "arg").getD "")
              URL := env.URLString r (r.Query.Set "arg" ((r.Vars.lookup "arg").getD "")) }
      ∧ (r.Query.Set "arg" ((r.Vars.lookup "arg").getD "")).index "arg" =
          [(r.Vars.lookup "arg").getD ""]
      ∧ (r.Query.Set "arg" ((r.Vars.lookup "arg").getD "")).Get "arg" =
          (r.Vars.lookup "arg").getD ""
      ∧ (∀ key, key ≠ "arg" →
          (r.Query.Set "arg" ((r.Vars.lookup "arg").getD "")).index key = r.Query.index key
            ∧ (r.Query.Set "arg" ((r.Vars.lookup "arg").getD "")).Get key = r.Query.Get key) := by
  refine ⟨rfl, Values.index_Set_self _ _ _, ?_, ?_⟩
  · simp only [Values.Get, Values.index_Set_self]
  · intro key hkey
    have h := Values.index_Set_other r.Query "arg" ((r.Vars.lookup "arg").getD "") key hkey
    exact ⟨h, by simp only [Values.Get, h]⟩

theorem slashHandler_sets_arg_witness :
    slashRequest.Vars = [("arg", "QmA")]
      ∧ (Handler.run (Handler.slashHandler Handler.pinLsHandler)).map
          (fun h => rpcCalls (h mockEnv slashRequest)) =
        some [⟨"", "Cluster", "PinGet", .cid ⟨"QmA"⟩⟩]
      ∧ (slashRequest.Query.Set "arg" "QmA").index "quiet" = ["1"] :=
  ⟨by decide,
   by
    show some (rpcCalls (slashHandler pinLsHandler mockEnv slashRequest)) = _
    rw [(slashHandler_sets_arg pinLsHandler mockEnv slashRequest).1]
    decide,
   ((slashHandler_sets_arg pinLsHandler mockEnv slashRequest).2.2.2 "quiet" (by decide)).1⟩

/-! ## Shutdown -/

/-- A call of `Shutdown` on a server that is shut down already changes
nothing, stops nothing and returns nil. -/
theorem Server.Shutdown_of_shutdown (proxy : Server) (h : proxy.shutdown = true) :
    proxy.Shutdown =
      (proxy, [ServerEffect.Lock, ServerEffect.Debug "already shutdown", ServerEffect.Unlock],
        Outcome.returned none) := by
  simp [Server.Shutdown, h]

/-- Further calls on a server that is shut down. -/
theorem Server.ShutdownTimes_of_shutdown (n : Nat) (proxy : Server)
    (h : proxy.shutdown = true) :
    (Server.ShutdownTimes n proxy).1 = proxy
      ∧ (Server.ShutdownTimes n proxy).2.1.filter ServerEffect.stops = []
      ∧ ∀ o ∈ (Server.ShutdownTimes n proxy).2.2, o = Outcome.returned none := by
  induction n with
  | zero => simp [Server.ShutdownTimes]
  | succ k ih =>
    simp only [Server.ShutdownTimes, Server.Shutdown_of_shutdown proxy h, List.filter_append,
      List.mem_cons]
    refine ⟨ih.1, ?_, ?_⟩
    · rw [ih.2.1]; rfl
    · intro o ho
      rcases ho with ho | ho
      · exact ho
      · exact ih.2.2 o ho

/-- C15: on a server in a state it can be in between calls (as `New` returns
it, or after calls of `Shutdown`), `Shutdown` called `n + 1` times in a row
leaves the server as one call leaves it, stops exactly what one call stops,
and every call returns nil; the server is then shut down, with the context
cancelled, the channel closed, the keep-alives off and the listener closed,
and one more call changes nothing and stops nothing.  The states between
calls are kept by `Shutdown`. -/
theorem Server.Shutdown_idempotent (proxy : Server) (n : Nat)
    (h : proxy.Consistent) :
    (Server.ShutdownTimes (n + 1) proxy).1 = proxy.Shutdown.1
      ∧ (Server.ShutdownTimes (n + 1) proxy).2.1.filter ServerEffect.stops =
          proxy.Shutdown.2.1.filter ServerEffect.stops
      ∧ (∀ o ∈ (Server.ShutdownTimes (n + 1) proxy).2.2, o = Outcome.returned none)
      ∧ proxy.Shutdown.1.shutdown = true
      ∧ proxy.Shutdown.1.Shutdown =
          (proxy.Shutdown.1,
            [ServerEffect.Lock, ServerEffect.Debug "already shutdown", ServerEffect.Unlock],
            Outcome.returned none)
      ∧ (proxy.shutdown = false →
          proxy.Shutdown.1 =
              { shutdown := true, cancelled := true, rpcReadyClosed := true,
                keepAlivesEnabled := false, listenerClosed := true }
            ∧ proxy.Shutdown.2.1.filter ServerEffect.stops =
              [ServerEffect.cancel, ServerEffect.closeRpcReady,
                ServerEffect.SetKeepAlivesEnabled false, ServerEffect.listenerClose,
                ServerEffect.wgWait])
      ∧ proxy.Shutdown.1.Consistent
      ∧ Server.New.Consistent := by
  have hdown : proxy.Shutdown.1.shutdown = true ∧ proxy.Shutdown.2.2 = Outcome.returned none := by
    by_cases hs : proxy.shutdown = true
    · simp [Server.Shutdown, hs]
    · have hc : proxy.rpcReadyClosed = false := by
        cases hrc : proxy.rpcReadyClosed with
        | false => rfl
        | true => exact absurd (h hrc) hs
      simp [Server.Shutdown, hs, hc]
  obtain ⟨h1, h2, h3⟩ := Server.ShutdownTimes_of_shutdown n proxy.Shutdown.1 hdown.1
  refine ⟨?_, ?_, ?_, hdown.1, Server.Shutdown_of_shutdown _ hdown.1, ?_, fun _ => hdown.1, ?_⟩
  · simp only [Server.ShutdownTimes, h1]
  · simp only [Server.ShutdownTimes, List.filter_append, h2, List.append_nil]
  · intro o ho
    simp only [Server.ShutdownTimes, List.mem_cons] at ho
    rcases ho with ho | ho
    · rw [ho]; exact hdown.2
    · exact h3 o ho
  · intro hs
    have hc : proxy.rpcReadyClosed = false := by
      cases hrc : proxy.rpcReadyClosed with
      | false => rfl
      | true => rw [h hrc] at hs; exact Bool.noConfusion hs
    constructor
    · simp [Server.Shutdown, hs, hc]
    · simp [Server.Shutdown, hs, hc, ServerEffect.stops]
  · intro hc
    exact Bool.noConfusion hc

theorem Server.Shutdown_idempotent_witness :
    (Server.ShutdownTimes 3 Server.New).1 =
        { shutdown := true, cancelled := true, rpcReadyClosed := true,
          keepAlivesEnabled := false, listenerClosed := true }
      ∧ (Server.ShutdownTimes 3 Server.New).2.1.filter ServerEffect.stops =
        [ServerEffect.cancel, ServerEffect.closeRpcReady,
          ServerEffect.SetKeepAlivesEnabled false, ServerEffect.listenerClose,
          ServerEffect.wgWait] :=
  have h := Server.Shutdown_idempotent Server.New 2 (fun hc => Bool.noConfusion hc)
  ⟨h.1.trans (h.2.2.2.2.2.1 rfl).1, h.2.1.trans (h.2.2.2.2.2.1 rfl).2⟩

end IpfsProxy

namespace Basic

/-- C16: `Validate` returns an error exactly when `CheckInterval` is zero or
negative; `Default` returns nil and sets `CheckInterval` to fifteen seconds,
and the configuration it leaves passes `Validate`. -/
theorem Config.Validate_iff_nonpositive (cfg : Config) :
    (cfg.Validate ≠ none ↔ cfg.CheckInterval ≤ 0)
      ∧ (cfg.CheckInterval ≤ 0 → cfg.Validate = some "basic.check_interval too low")
      ∧ cfg.Default.2 = none
      ∧ cfg.Default.1.CheckInterval = 15 * 1000000000
      ∧ cfg.Default.1.Validate = none := by
  refine ⟨?_, ?_, rfl, rfl, ?_⟩
  · unfold Config.Validate
    by_cases h : cfg.CheckInterval ≤ 0 <;> simp [h]
  · intro h
    simp [Config.Validate, h]
  · simp [Config.Validate, Config.Default, DefaultCheckInterval, Second]

theorem Config.Validate_iff_nonpositive_witness :
    Config.Validate ⟨0⟩ = some "basic.check_interval too low"
      ∧ Config.Validate ⟨-5⟩ ≠ none
      ∧ Config.Validate ⟨1⟩ = none :=
  ⟨(Config.Validate_iff_nonpositive ⟨0⟩).2.1 (by decide),
   (Config.Validate_iff_nonpositive ⟨-5⟩).1.mpr (by decide),
   by
    have h := (Config.Validate_iff_nonpositive ⟨1⟩).1
    by_contra hne
    exact absurd (h.mp hne) (by decide)⟩

end Basic
